import Mathlib

/-!
Verification development for the workout-aggregation core of
jfkirk/pelotodos (src/main.py).

The embedding models a pandas DataFrame as a list of rows, each row an
association list from column names to cells.  A cell is `none` for a
missing value (NaN/NaT/None) and `some v` for a present value.  Numbers
are embedded as rationals: the claims under study are exact-arithmetic
statements about sums and ratios, and the accumulation loop of the source
performs only additions, multiplications and one final division per
column.  Pandas' float division is modelled by `pdiv`, which keeps the
NaN/±inf distinctions the source relies on.
-/

set_option maxRecDepth 40000

deriving instance DecidableEq for Except

/-- Calendar date (proleptic Gregorian), used for the c_day / c_week
derived columns of `process_workouts_df`. -/
structure Date where
  year : Nat
  month : Nat
  day : Nat
deriving DecidableEq, Repr

/-- A value held in a DataFrame cell: a number, a string, a date
(`.date()` results), a timezone-aware instant (minutes since the
proleptic epoch, UTC), or an IEEE infinity (result of float division by
zero, as produced for the c_calories_per_minute column). -/
inductive Val where
  | rat (q : ℚ)
  | str (s : String)
  | date (d : Date)
  | dt (t : Int)
  | infty (pos : Bool)
deriving DecidableEq, Repr

/-- A cell of the table: `none` is a missing value (`pd.isna` is true). -/
abbrev Cell := Option Val

/-- A row of the table: column name to cell.  `pandas` rows expose every
column of the frame; looking up a name that is not a column raises
`KeyError`. -/
abbrev Row := List (String × Cell)

/-- Column lookup on a row (`row[c]` without the raising behaviour):
`none` when the column does not exist. -/
def colGet : Row → String → Option Cell
  | [], _ => none
  | (c0, v) :: rest, c => if c0 = c then some v else colGet rest c

/-- `row[c]` of pandas: the cell, or a `KeyError` naming the column. -/
def rowGet (r : Row) (c : String) : Except String Cell :=
  match colGet r c with
  | some v => Except.ok v
  | none => Except.error c

/-- Numeric read of a cell, as the accumulation loop uses it: a missing
value stays missing, a number is returned, and a non-numeric value in a
numeric position is a type error of the `+=` that follows. -/
def cellNum : Cell → Except String (Option ℚ)
  | none => Except.ok none
  | some (Val.rat q) => Except.ok (some q)
  | some _ => Except.error "unsupported operand type"

/-- Numeric read of a named column of a row. -/
def rowNum (r : Row) (c : String) : Except String (Option ℚ) :=
  (rowGet r c).bind cellNum

/-- One accumulator of `Aggregation.__init__`: a `defaultdict` keyed by
group value, in first-touch (insertion) order. -/
def bump {M : Type} [Add M] : List (Val × M) → Val → M → List (Val × M)
  | [], k, d => [(k, d)]
  | (k0, v) :: rest, k, d =>
      if k0 = k then (k0, v + d) :: rest else (k0, v) :: bump rest k d

/-- Dictionary lookup in an accumulator. -/
def getAcc {M : Type} : List (Val × M) → Val → Option M
  | [], _ => none
  | (k0, v) :: rest, k => if k0 = k then some v else getAcc rest k

/-- The thirteen accumulators of `Aggregation.__init__` (lines 16-28 of
src/main.py). -/
structure AccState where
  total_workouts : List (Val × ℕ)
  total_time : List (Val × ℚ)
  total_distance : List (Val × ℚ)
  total_output : List (Val × ℚ)
  total_output_minutes : List (Val × ℚ)
  total_calories : List (Val × ℚ)
  total_calories_minutes : List (Val × ℚ)
  total_hr : List (Val × ℚ)
  total_hr_minutes : List (Val × ℚ)
  total_speed : List (Val × ℚ)
  total_speed_minutes : List (Val × ℚ)
  total_cadence : List (Val × ℚ)
  total_cadence_minutes : List (Val × ℚ)
deriving DecidableEq, Repr

/-- All accumulators start empty. -/
def initialAcc : AccState :=
  ⟨[], [], [], [], [], [], [], [], [], [], [], [], []⟩

/-- The group key of a row (lines 31-39 of src/main.py): with a truthy
`group_by` the value of that column (`KeyError` if the column does not
exist), otherwise the constant "All Time".  A `None`/empty `group_by`
is falsy in Python, hence the empty-string case. -/
def keyOf (group_by : Option String) (r : Row) : Except String Cell :=
  match group_by with
  | some c => if c = "" then Except.ok (some (Val.str "All Time")) else rowGet r c
  | none => Except.ok (some (Val.str "All Time"))

/-- Line 42 of src/main.py: `total_workouts[key] += 1`. -/
def updWorkouts (st : AccState) (k : Val) : AccState :=
  { st with total_workouts := bump st.total_workouts k 1 }

/-- Conditional accumulator update: apply `bump` when the row
contributes a (key, delta) pair, leave the dict alone otherwise.  The
`if not pd.isna(...)` guards of the loop are rendered with it: a missing
value contributes nothing. -/
def optBump {M : Type} [Add M] (l : List (Val × M)) : Option (Val × M) → List (Val × M)
  | some kd => bump l kd.1 kd.2
  | none => l

/-- Lines 43-44: add the distance when present. -/
def updDistance (st : AccState) (k : Val) (o : Option ℚ) : AccState :=
  { st with total_distance := optBump st.total_distance (o.map fun v => (k, v)) }

/-- Line 46: `total_time[key] += row["Length (minutes)"]` (reached only
with a present length). -/
def updTime (st : AccState) (k : Val) (L : ℚ) : AccState :=
  { st with total_time := bump st.total_time k L }

/-- Lines 49-51: output total and output-weighting minutes, both added
only when the output value is present. -/
def updOutput (st : AccState) (k : Val) (L : ℚ) (o : Option ℚ) : AccState :=
  { st with total_output := optBump st.total_output (o.map fun v => (k, v)),
            total_output_minutes := optBump st.total_output_minutes (o.map fun _ => (k, L)) }

/-- Lines 52-54: calories total and calories-weighting minutes. -/
def updCalories (st : AccState) (k : Val) (L : ℚ) (o : Option ℚ) : AccState :=
  { st with total_calories := optBump st.total_calories (o.map fun v => (k, v)),
            total_calories_minutes := optBump st.total_calories_minutes (o.map fun _ => (k, L)) }

/-- Lines 55-57: length-weighted heartrate and its minutes. -/
def updHr (st : AccState) (k : Val) (L : ℚ) (o : Option ℚ) : AccState :=
  { st with total_hr := optBump st.total_hr (o.map fun v => (k, L * v)),
            total_hr_minutes := optBump st.total_hr_minutes (o.map fun _ => (k, L)) }

/-- Lines 58-62: length-weighted speed and its minutes. -/
def updSpeed (st : AccState) (k : Val) (L : ℚ) (o : Option ℚ) : AccState :=
  { st with total_speed := optBump st.total_speed (o.map fun v => (k, L * v)),
            total_speed_minutes := optBump st.total_speed_minutes (o.map fun _ => (k, L)) }

/-- Lines 63-67: length-weighted cadence and its minutes. -/
def updCadence (st : AccState) (k : Val) (L : ℚ) (o : Option ℚ) : AccState :=
  { st with total_cadence := optBump st.total_cadence (o.map fun v => (k, L * v)),
            total_cadence_minutes := optBump st.total_cadence_minutes (o.map fun _ => (k, L)) }

/-- The body of the `for` loop of `Aggregation.__init__` (lines 30-67 of
src/main.py) for one row, with the source's reading order: group key
(skip when null), workouts count, distance, length, then the five
length-gated metrics. -/
def stepRow (group_by : Option String) (st : AccState) (r : Row) :
    Except String AccState := do
  let key ← keyOf group_by r
  match key with
  | none => pure st
  | some k => do
    let st := updWorkouts st k
    let dist ← rowNum r "Distance (mi)"
    let st := updDistance st k dist
    let len ← rowNum r "Length (minutes)"
    match len with
    | none => pure st
    | some L => do
      let st := updTime st k L
      let out ← rowNum r "Total Output"
      let st := updOutput st k L out
      let cal ← rowNum r "Calories Burned"
      let st := updCalories st k L cal
      let hrv ← rowNum r "Avg. Heartrate"
      let st := updHr st k L hrv
      let spd ← rowNum r "Avg. Speed (mph)"
      let st := updSpeed st k L spd
      let cad ← rowNum r "Avg. Cadence (RPM)"
      let st := updCadence st k L cad
      pure st

/-- Result of a pandas float division on aligned cells: a finite value,
NaN (shown as `absent`) or a signed infinity. -/
inductive RatioVal where
  | absent
  | val (q : ℚ)
  | posInf
  | negInf
deriving DecidableEq, Repr

/-- Pandas element-wise division of two aligned cells: a missing operand
gives NaN, 0/0 gives NaN, x/0 gives a signed infinity for x nonzero, and
otherwise the exact quotient. -/
def pdiv : Option ℚ → Option ℚ → RatioVal
  | none, _ => RatioVal.absent
  | some _, none => RatioVal.absent
  | some a, some b =>
      if b = 0 then
        if a = 0 then RatioVal.absent
        else if 0 < a then RatioVal.posInf else RatioVal.negInf
      else RatioVal.val (a / b)

/-- One row of `self.aggregated_df` (lines 69-86 of src/main.py).  The
frame is built from the thirteen accumulator dicts as Series; a key the
dict was never touched for aligns to NaN (`none`), and the five ratio
columns are Series divisions. -/
structure GroupSummary where
  total_workouts : ℕ
  total_minutes : Option ℚ
  total_distance : Option ℚ
  total_output : Option ℚ
  total_calories : Option ℚ
  output_per_minute : RatioVal
  calories_per_minute : RatioVal
  avg_heartrate : RatioVal
  avg_speed : RatioVal
  avg_cadence : RatioVal
deriving DecidableEq, Repr

/-- The summary row of one group key: the five totals are the
accumulator dict entries (a never-touched dict aligns to NaN in the
frame construction), the five ratios are the Series divisions of lines
76-84. -/
def summaryAt (st : AccState) (k : Val) (n : ℕ) : GroupSummary :=
  { total_workouts := n
    total_minutes := getAcc st.total_time k
    total_distance := getAcc st.total_distance k
    total_output := getAcc st.total_output k
    total_calories := getAcc st.total_calories k
    output_per_minute :=
      pdiv (getAcc st.total_output k) (getAcc st.total_output_minutes k)
    calories_per_minute :=
      pdiv (getAcc st.total_calories k) (getAcc st.total_calories_minutes k)
    avg_heartrate :=
      pdiv (getAcc st.total_hr k) (getAcc st.total_hr_minutes k)
    avg_speed :=
      pdiv (getAcc st.total_speed k) (getAcc st.total_speed_minutes k)
    avg_cadence :=
      pdiv (getAcc st.total_cadence k) (getAcc st.total_cadence_minutes k) }

/-- The rows of `self.aggregated_df`, indexed by group key.  Every group
key is a key of `total_workouts` (each accumulator is only ever touched
after `total_workouts[key] += 1`, so the index union of the Series is
the index of `total_workouts`, in first-touch order). -/
def aggregated_df (st : AccState) : List (Val × GroupSummary) :=
  st.total_workouts.map fun p => (p.1, summaryAt st p.1 p.2)

/-- `Aggregation(workouts_df, group_by)`: the accumulation loop over the
rows followed by the construction of `aggregated_df`.  An uncaught
`KeyError`/`TypeError` of the loop is the `Except.error` case. -/
def Aggregation (workouts_df : List Row) (group_by : Option String) :
    Except String (List (Val × GroupSummary)) := do
  let st ← workouts_df.foldlM (stepRow group_by) initialAcc
  pure (aggregated_df st)

example : Aggregation [] (some "nonexistent") = Except.ok [] := rfl

/-!
Pure restatement of the loop body.  `stepP` is `stepRow` with the
effectful reads replaced by their pure values; the two are proved equal
on well-formed rows (`stepRow_eq_stepP`).  `stepP` is written field by
field: each accumulator dict of the source is updated independently,
under exactly the guard the source nests it in.
-/

/-- Pure value of a numeric column: `some q` when the column exists and
holds a number, `none` when the cell is missing. -/
def numOf (r : Row) (c : String) : Option ℚ :=
  match colGet r c with
  | some (some (Val.rat q)) => some q
  | _ => none

/-- Pure group key of a row: the all-time constant for a falsy
`group_by`, otherwise the (possibly missing) value of the column. -/
def keyOfP (group_by : Option String) (r : Row) : Option Val :=
  match group_by with
  | some c => if c = "" then some (Val.str "All Time") else (colGet r c).join
  | none => some (Val.str "All Time")

/-- Contribution of a row to a length-gated accumulator: present only
when both "Length (minutes)" and the metric column hold values, in
which case it is `f length value` at the row's key. -/
def withLen (r : Row) (c : String) (f : ℚ → ℚ → ℚ) (k : Val) : Option (Val × ℚ) :=
  (numOf r "Length (minutes)").bind fun L => (numOf r c).map fun v => (k, f L v)

/-- Pure loop body: the same thirteen updates as `stepRow`, with the
effectful reads replaced by their pure values. -/
def stepP (group_by : Option String) (st : AccState) (r : Row) : AccState :=
  match keyOfP group_by r with
  | none => st
  | some k =>
    let st := updWorkouts st k
    let st := updDistance st k (numOf r "Distance (mi)")
    match numOf r "Length (minutes)" with
    | none => st
    | some L =>
      let st := updTime st k L
      let st := updOutput st k L (numOf r "Total Output")
      let st := updCalories st k L (numOf r "Calories Burned")
      let st := updHr st k L (numOf r "Avg. Heartrate")
      let st := updSpeed st k L (numOf r "Avg. Speed (mph)")
      let st := updCadence st k L (numOf r "Avg. Cadence (RPM)")
      st

/-- The whole accumulation loop, pure form. -/
def foldP (workouts_df : List Row) (group_by : Option String) : AccState :=
  workouts_df.foldl (stepP group_by) initialAcc

/-- The numeric columns the loop reads. -/
def metricCols : List String :=
  ["Distance (mi)", "Length (minutes)", "Total Output", "Calories Burned",
   "Avg. Heartrate", "Avg. Speed (mph)", "Avg. Cadence (RPM)"]

/-- A cell usable in a numeric position: present column, number or
missing value. -/
def numericCell : Option Cell → Bool
  | some none => true
  | some (some (Val.rat _)) => true
  | _ => false

/-- A truthy `group_by` names an existing column of the row. -/
def WFkey (group_by : Option String) (r : Row) : Prop :=
  match group_by with
  | some c => c = "" ∨ (colGet r c).isSome = true
  | none => True

instance (group_by : Option String) (r : Row) : Decidable (WFkey group_by r) :=
  match group_by with
  | none => isTrue trivial
  | some c => inferInstanceAs (Decidable (c = "" ∨ (colGet r c).isSome = true))

/-- Well-formed row for a given grouping: the seven numeric columns
exist and are numeric-or-missing (the input boundary of the spec fixes
these columns), and a truthy `group_by` names an existing column. -/
def WFRow (group_by : Option String) (r : Row) : Prop :=
  (∀ c ∈ metricCols, numericCell (colGet r c) = true) ∧ WFkey group_by r

instance (group_by : Option String) (r : Row) : Decidable (WFRow group_by r) :=
  inferInstanceAs (Decidable (_ ∧ _))

theorem rowNum_eq_numOf (r : Row) (c : String)
    (h : numericCell (colGet r c) = true) :
    rowNum r c = Except.ok (numOf r c) := by
  unfold rowNum rowGet numOf
  cases hc : colGet r c with
  | none => rw [hc] at h; simp [numericCell] at h
  | some cell =>
    cases cell with
    | none => simp [Except.bind, cellNum]
    | some v =>
      cases v with
      | rat q => simp [Except.bind, cellNum]
      | str s => rw [hc] at h; simp [numericCell] at h
      | date d => rw [hc] at h; simp [numericCell] at h
      | dt t => rw [hc] at h; simp [numericCell] at h
      | infty b => rw [hc] at h; simp [numericCell] at h

theorem keyOf_eq_keyOfP (group_by : Option String) (r : Row)
    (h : WFkey group_by r) :
    keyOf group_by r = Except.ok (keyOfP group_by r) := by
  unfold WFkey at h
  unfold keyOf keyOfP
  cases group_by with
  | none => rfl
  | some c =>
    by_cases hc : c = ""
    · simp [hc]
    · simp only [hc, if_false]
      rcases h with h | h
      · exact absurd h hc
      · cases hcol : colGet r c with
        | none => rw [hcol] at h; simp at h
        | some cell => simp [rowGet, hcol]

theorem okBind {ε α β : Type} (a : α) (f : α → Except ε β) :
    (Except.ok a : Except ε α) >>= f = f a := rfl

theorem stepRow_eq_stepP (group_by : Option String) (st : AccState) (r : Row)
    (hwf : WFRow group_by r) :
    stepRow group_by st r = Except.ok (stepP group_by st r) := by
  obtain ⟨hnum, hkey⟩ := hwf
  have hdist := rowNum_eq_numOf r "Distance (mi)" (hnum _ (by simp [metricCols]))
  have hlen := rowNum_eq_numOf r "Length (minutes)" (hnum _ (by simp [metricCols]))
  have hout := rowNum_eq_numOf r "Total Output" (hnum _ (by simp [metricCols]))
  have hcal := rowNum_eq_numOf r "Calories Burned" (hnum _ (by simp [metricCols]))
  have hhr := rowNum_eq_numOf r "Avg. Heartrate" (hnum _ (by simp [metricCols]))
  have hspd := rowNum_eq_numOf r "Avg. Speed (mph)" (hnum _ (by simp [metricCols]))
  have hcad := rowNum_eq_numOf r "Avg. Cadence (RPM)" (hnum _ (by simp [metricCols]))
  unfold stepRow stepP
  rw [keyOf_eq_keyOfP group_by r hkey, okBind]
  cases keyOfP group_by r with
  | none => rfl
  | some k =>
    simp only [okBind, hdist, hlen, hout, hcal, hhr, hspd, hcad]
    cases numOf r "Length (minutes)" <;> rfl

theorem foldlM_eq_foldl {α σ ε : Type} (f : σ → α → Except ε σ) (g : σ → α → σ)
    (l : List α) (h : ∀ s a, a ∈ l → f s a = Except.ok (g s a)) (s : σ) :
    l.foldlM f s = Except.ok (l.foldl g s) := by
  induction l generalizing s with
  | nil => rfl
  | cons a rest ih =>
    rw [List.foldlM_cons, h s a (List.mem_cons_self a rest), okBind, List.foldl_cons]
    exact ih (fun s b hb => h s b (List.mem_cons_of_mem a hb)) _

/-- On a well-formed table the constructor succeeds, and its result is
the summary of the pure fold. -/
theorem Aggregation_ok (workouts_df : List Row) (group_by : Option String)
    (hwf : ∀ r ∈ workouts_df, WFRow group_by r) :
    Aggregation workouts_df group_by =
      Except.ok (aggregated_df (foldP workouts_df group_by)) := by
  unfold Aggregation foldP
  rw [foldlM_eq_foldl (stepRow group_by) (stepP group_by) workouts_df
    (fun s a ha => stepRow_eq_stepP group_by s a (hwf a ha)), okBind]
  rfl

/-!
Per-row contributions.  For each accumulator family, the (key, delta)
pair a row contributes, if any: these restate the guards of the loop at
the level of one field.
-/

/-- Every row with a present group key contributes 1 to `total_workouts`. -/
def wContrib (group_by : Option String) (r : Row) : Option (Val × ℕ) :=
  (keyOfP group_by r).map fun k => (k, 1)

/-- Contribution to `total_distance`: its value, when present. -/
def distContrib (group_by : Option String) (r : Row) : Option (Val × ℚ) :=
  match keyOfP group_by r with
  | some k => (numOf r "Distance (mi)").map fun v => (k, v)
  | none => none

/-- Contribution to `total_time`: the length, when present. -/
def timeContrib (group_by : Option String) (r : Row) : Option (Val × ℚ) :=
  match keyOfP group_by r with
  | some k => (numOf r "Length (minutes)").map fun L => (k, L)
  | none => none

/-- Contribution to a length-gated accumulator for metric column `c`. -/
def gatedContrib (group_by : Option String) (r : Row) (c : String)
    (f : ℚ → ℚ → ℚ) : Option (Val × ℚ) :=
  match keyOfP group_by r with
  | some k => withLen r c f k
  | none => none

theorem stepP_tw (group_by : Option String) (st : AccState) (r : Row) :
    (stepP group_by st r).total_workouts =
      optBump st.total_workouts (wContrib group_by r) := by
  unfold stepP wContrib
  cases keyOfP group_by r <;> cases numOf r "Length (minutes)" <;> rfl

theorem stepP_td (group_by : Option String) (st : AccState) (r : Row) :
    (stepP group_by st r).total_distance =
      optBump st.total_distance (distContrib group_by r) := by
  unfold stepP distContrib
  cases keyOfP group_by r <;> cases numOf r "Length (minutes)" <;> rfl

theorem stepP_tt (group_by : Option String) (st : AccState) (r : Row) :
    (stepP group_by st r).total_time =
      optBump st.total_time (timeContrib group_by r) := by
  unfold stepP timeContrib
  cases keyOfP group_by r <;> cases numOf r "Length (minutes)" <;> rfl

theorem stepP_to (group_by : Option String) (st : AccState) (r : Row) :
    (stepP group_by st r).total_output =
      optBump st.total_output (gatedContrib group_by r "Total Output" fun _ v => v) := by
  unfold stepP gatedContrib withLen
  cases keyOfP group_by r <;> cases numOf r "Length (minutes)" <;> rfl

theorem stepP_tom (group_by : Option String) (st : AccState) (r : Row) :
    (stepP group_by st r).total_output_minutes =
      optBump st.total_output_minutes (gatedContrib group_by r "Total Output" fun L _ => L) := by
  unfold stepP gatedContrib withLen
  cases keyOfP group_by r <;> cases numOf r "Length (minutes)" <;> rfl

theorem stepP_tc (group_by : Option String) (st : AccState) (r : Row) :
    (stepP group_by st r).total_calories =
      optBump st.total_calories (gatedContrib group_by r "Calories Burned" fun _ v => v) := by
  unfold stepP gatedContrib withLen
  cases keyOfP group_by r <;> cases numOf r "Length (minutes)" <;> rfl

theorem stepP_tcm (group_by : Option String) (st : AccState) (r : Row) :
    (stepP group_by st r).total_calories_minutes =
      optBump st.total_calories_minutes (gatedContrib group_by r "Calories Burned" fun L _ => L) := by
  unfold stepP gatedContrib withLen
  cases keyOfP group_by r <;> cases numOf r "Length (minutes)" <;> rfl

theorem stepP_th (group_by : Option String) (st : AccState) (r : Row) :
    (stepP group_by st r).total_hr =
      optBump st.total_hr (gatedContrib group_by r "Avg. Heartrate" fun L v => L * v) := by
  unfold stepP gatedContrib withLen
  cases keyOfP group_by r <;> cases numOf r "Length (minutes)" <;> rfl

theorem stepP_thm (group_by : Option String) (st : AccState) (r : Row) :
    (stepP group_by st r).total_hr_minutes =
      optBump st.total_hr_minutes (gatedContrib group_by r "Avg. Heartrate" fun L _ => L) := by
  unfold stepP gatedContrib withLen
  cases keyOfP group_by r <;> cases numOf r "Length (minutes)" <;> rfl

theorem stepP_ts (group_by : Option String) (st : AccState) (r : Row) :
    (stepP group_by st r).total_speed =
      optBump st.total_speed (gatedContrib group_by r "Avg. Speed (mph)" fun L v => L * v) := by
  unfold stepP gatedContrib withLen
  cases keyOfP group_by r <;> cases numOf r "Length (minutes)" <;> rfl

theorem stepP_tsm (group_by : Option String) (st : AccState) (r : Row) :
    (stepP group_by st r).total_speed_minutes =
      optBump st.total_speed_minutes (gatedContrib group_by r "Avg. Speed (mph)" fun L _ => L) := by
  unfold stepP gatedContrib withLen
  cases keyOfP group_by r <;> cases numOf r "Length (minutes)" <;> rfl

theorem stepP_tcd (group_by : Option String) (st : AccState) (r : Row) :
    (stepP group_by st r).total_cadence =
      optBump st.total_cadence (gatedContrib group_by r "Avg. Cadence (RPM)" fun L v => L * v) := by
  unfold stepP gatedContrib withLen
  cases keyOfP group_by r <;> cases numOf r "Length (minutes)" <;> rfl

theorem stepP_tcdm (group_by : Option String) (st : AccState) (r : Row) :
    (stepP group_by st r).total_cadence_minutes =
      optBump st.total_cadence_minutes (gatedContrib group_by r "Avg. Cadence (RPM)" fun L _ => L) := by
  unfold stepP gatedContrib withLen
  cases keyOfP group_by r <;> cases numOf r "Length (minutes)" <;> rfl


/-!
Dictionary algebra: how `getAcc`, key lists and totals evolve under
`bump`, and the characterization of a whole fold in terms of the list of
per-row contributions.
-/

theorem getAcc_bump_self {M : Type} [Add M] (l : List (Val × M)) (k : Val) (v : M) :
    getAcc (bump l k v) k =
      some (match getAcc l k with | some a => a + v | none => v) := by
  induction l with
  | nil => simp [bump, getAcc]
  | cons p rest ih =>
    obtain ⟨k0, v0⟩ := p
    by_cases h : k0 = k
    · simp [bump, getAcc, h]
    · simp [bump, getAcc, h, ih]

theorem getAcc_bump_ne {M : Type} [Add M] (l : List (Val × M)) (k0 k : Val) (v : M)
    (h : k0 ≠ k) : getAcc (bump l k0 v) k = getAcc l k := by
  induction l with
  | nil => simp [bump, getAcc, h]
  | cons p rest ih =>
    obtain ⟨k1, v1⟩ := p
    by_cases h1 : k1 = k0
    · simp [bump, getAcc, h1, h]
    · simp only [bump, if_neg h1]
      by_cases h2 : k1 = k <;> simp [getAcc, h2, ih]

/-- Merge a dictionary entry with a list of later additions: `none`
with no additions stays missing, otherwise the total. -/
def mergeOpt {M : Type} [AddCommMonoid M] : Option M → List M → Option M
  | o, [] => o
  | none, vs => some vs.sum
  | some a, vs => some (a + vs.sum)

theorem mergeOpt_cons {M : Type} [AddCommMonoid M] (o : Option M) (v : M) (vs : List M) :
    mergeOpt o (v :: vs) =
      mergeOpt (some (match o with | some a => a + v | none => v)) vs := by
  cases o <;> cases vs <;> simp [mergeOpt, add_assoc]

/-- The deltas a list of rows contributes at key `k` under a
contribution function, in row order. -/
def contribVals {M : Type} (contrib : Row → Option (Val × M)) (k : Val)
    (rows : List Row) : List M :=
  rows.filterMap fun r =>
    match contrib r with
    | some kd => if kd.1 = k then some kd.2 else none
    | none => none

theorem getAcc_foldP {M : Type} [AddCommMonoid M] (group_by : Option String)
    (proj : AccState → List (Val × M)) (contrib : Row → Option (Val × M))
    (hstep : ∀ st r, proj (stepP group_by st r) = optBump (proj st) (contrib r))
    (rows : List Row) (st : AccState) (k : Val) :
    getAcc (proj (rows.foldl (stepP group_by) st)) k =
      mergeOpt (getAcc (proj st) k) (contribVals contrib k rows) := by
  induction rows generalizing st with
  | nil => simp [contribVals, mergeOpt]
  | cons r rest ih =>
    rw [List.foldl_cons, ih, hstep]
    cases hc : contrib r with
    | none =>
      simp [optBump, contribVals, List.filterMap_cons, hc]
    | some kd =>
      obtain ⟨k0, v⟩ := kd
      by_cases hk : k0 = k
      · subst hk
        have hv : contribVals contrib k0 (r :: rest) = v :: contribVals contrib k0 rest := by
          simp [contribVals, List.filterMap_cons, hc]
        rw [hv, optBump, getAcc_bump_self, mergeOpt_cons]
      · have hv : contribVals contrib k (r :: rest) = contribVals contrib k rest := by
          simp [contribVals, List.filterMap_cons, hc, hk]
        rw [hv, optBump, getAcc_bump_ne _ _ _ _ hk]

/-- The key list of an accumulator dict. -/
def accKeys {M : Type} (l : List (Val × M)) : List Val := l.map Prod.fst

theorem mem_accKeys {M : Type} (l : List (Val × M)) (k : Val) :
    k ∈ accKeys l ↔ (getAcc l k).isSome = true := by
  induction l with
  | nil => simp [accKeys, getAcc]
  | cons p rest ih =>
    obtain ⟨k0, v0⟩ := p
    by_cases h : k0 = k
    · subst h; simp [accKeys, getAcc]
    · have hcons : accKeys ((k0, v0) :: rest) = k0 :: accKeys rest := rfl
      rw [hcons, List.mem_cons, ih]
      simp [getAcc, h, Ne.symm h]

theorem accKeys_bump {M : Type} [Add M] (l : List (Val × M)) (k : Val) (v : M) :
    accKeys (bump l k v) =
      accKeys l ++ (match getAcc l k with | some _ => [] | none => [k]) := by
  induction l with
  | nil => simp [accKeys, bump, getAcc]
  | cons p rest ih =>
    obtain ⟨k0, v0⟩ := p
    by_cases h : k0 = k
    · subst h; simp [accKeys, bump, getAcc]
    · simp only [bump, if_neg h, accKeys, List.map_cons, getAcc]
      rw [show List.map Prod.fst (bump rest k v) = accKeys (bump rest k v) from rfl, ih]
      simp [accKeys]

theorem nodup_accKeys_bump {M : Type} [Add M] (l : List (Val × M)) (k : Val) (v : M)
    (h : (accKeys l).Nodup) : (accKeys (bump l k v)).Nodup := by
  rw [accKeys_bump]
  cases hg : getAcc l k with
  | some a => simpa using h
  | none =>
    have hk : k ∉ accKeys l := by
      rw [mem_accKeys, hg]
      simp
    simp [List.nodup_append, h, hk]

theorem nodup_accKeys_optBump {M : Type} [Add M] (l : List (Val × M))
    (o : Option (Val × M)) (h : (accKeys l).Nodup) :
    (accKeys (optBump l o)).Nodup := by
  cases o with
  | none => exact h
  | some kd => exact nodup_accKeys_bump l kd.1 kd.2 h

theorem getAcc_of_mem {M : Type} (l : List (Val × M)) (k : Val) (v : M)
    (hnd : (accKeys l).Nodup) (hm : (k, v) ∈ l) : getAcc l k = some v := by
  induction l with
  | nil => cases hm
  | cons p rest ih =>
    obtain ⟨k0, v0⟩ := p
    have hnd2 := List.nodup_cons.mp (show (k0 :: accKeys rest).Nodup from hnd)
    rcases List.mem_cons.mp hm with he | hrest
    · have h1 : k = k0 := congrArg Prod.fst he
      have h2 : v = v0 := congrArg Prod.snd he
      subst h1
      subst h2
      simp [getAcc]
    · have hk0 : k0 ≠ k := by
        rintro rfl
        exact hnd2.1 (List.mem_map.mpr ⟨(k0, v), hrest, rfl⟩)
      simp only [getAcc, if_neg hk0]
      exact ih hnd2.2 hrest

theorem mem_of_getAcc {M : Type} (l : List (Val × M)) (k : Val) (v : M)
    (h : getAcc l k = some v) : (k, v) ∈ l := by
  induction l with
  | nil => simp [getAcc] at h
  | cons p rest ih =>
    obtain ⟨k0, v0⟩ := p
    by_cases hk : k0 = k
    · subst hk
      have hv : v0 = v := by simpa [getAcc] using h
      subst hv
      exact List.mem_cons_self _ _
    · simp only [getAcc, if_neg hk] at h
      exact List.mem_cons_of_mem _ (ih h)

theorem nodup_foldP_workouts (group_by : Option String) (rows : List Row) (st : AccState)
    (h : (accKeys st.total_workouts).Nodup) :
    (accKeys ((rows.foldl (stepP group_by) st).total_workouts)).Nodup := by
  induction rows generalizing st with
  | nil => exact h
  | cons r rest ih =>
    rw [List.foldl_cons]
    refine ih _ ?_
    rw [stepP_tw]
    exact nodup_accKeys_optBump _ _ h

theorem mem_aggregated_df (st : AccState) (k : Val) (s : GroupSummary)
    (hnd : (accKeys st.total_workouts).Nodup) :
    (k, s) ∈ aggregated_df st ↔
      ∃ n, getAcc st.total_workouts k = some n ∧ s = summaryAt st k n := by
  unfold aggregated_df
  rw [List.mem_map]
  constructor
  · rintro ⟨p, hp, he⟩
    obtain ⟨k0, n⟩ := p
    have h1 : k0 = k := congrArg Prod.fst he
    subst h1
    have h2 : summaryAt st k0 n = s := congrArg Prod.snd he
    exact ⟨n, getAcc_of_mem _ _ _ hnd hp, h2.symm⟩
  · rintro ⟨n, hg, rfl⟩
    exact ⟨(k, n), mem_of_getAcc _ _ _ hg, rfl⟩

/-- Total of all entries of an accumulator dict. -/
def sndSum {M : Type} [AddCommMonoid M] (l : List (Val × M)) : M :=
  (l.map Prod.snd).sum

theorem sndSum_bump {M : Type} [AddCommMonoid M] (l : List (Val × M)) (k : Val) (v : M) :
    sndSum (bump l k v) = sndSum l + v := by
  induction l with
  | nil => simp [sndSum, bump]
  | cons p rest ih =>
    obtain ⟨k0, v0⟩ := p
    by_cases h : k0 = k
    · simp only [bump, if_pos h, sndSum, List.map_cons, List.sum_cons]
      abel
    · simp only [bump, if_neg h, sndSum, List.map_cons, List.sum_cons] at ih ⊢
      rw [ih]
      abel

theorem sndSum_foldP {M : Type} [AddCommMonoid M] (group_by : Option String)
    (proj : AccState → List (Val × M)) (contrib : Row → Option (Val × M))
    (hstep : ∀ st r, proj (stepP group_by st r) = optBump (proj st) (contrib r))
    (rows : List Row) (st : AccState) :
    sndSum (proj (rows.foldl (stepP group_by) st)) =
      sndSum (proj st) + ((rows.filterMap contrib).map Prod.snd).sum := by
  induction rows generalizing st with
  | nil => simp
  | cons r rest ih =>
    rw [List.foldl_cons, ih, hstep]
    cases hc : contrib r with
    | none => simp [optBump, List.filterMap_cons, hc]
    | some kd =>
      simp only [optBump, List.filterMap_cons, hc, List.map_cons, List.sum_cons,
        sndSum_bump]
      abel

/-!
Spec-side record sets: the records of a group, and the value lists the
summary formulas of the spec sum over.
-/

/-- The records keyed to group `k` (the set G of the spec). -/
def groupRows (rows : List Row) (group_by : Option String) (k : Val) : List Row :=
  rows.filter fun r => decide (keyOfP group_by r = some k)

/-- Over the records of group `k` where both "Length (minutes)" and
metric column `c` are present: the list of `f length value`, in row
order. -/
def weightedVals (rows : List Row) (group_by : Option String) (k : Val)
    (c : String) (f : ℚ → ℚ → ℚ) : List ℚ :=
  (groupRows rows group_by k).filterMap fun r =>
    (numOf r "Length (minutes)").bind fun L => (numOf r c).map fun v => f L v

/-- Over the records of group `k` where column `c` is present: its
values, in row order. -/
def presentVals (rows : List Row) (group_by : Option String) (k : Val)
    (c : String) : List ℚ :=
  (groupRows rows group_by k).filterMap fun r => numOf r c

theorem contribVals_gated (group_by : Option String) (rows : List Row) (k : Val)
    (c : String) (f : ℚ → ℚ → ℚ) :
    contribVals (fun r => gatedContrib group_by r c f) k rows =
      weightedVals rows group_by k c f := by
  induction rows with
  | nil => rfl
  | cons r rest ih =>
    unfold contribVals weightedVals groupRows at ih ⊢
    rw [List.filterMap_cons, List.filter_cons]
    cases hk : keyOfP group_by r with
    | none =>
      simp only [gatedContrib, hk]
      simpa [hk] using ih
    | some k0 =>
      by_cases hkk : k0 = k
      · subst hkk
        simp only [gatedContrib, hk, withLen, hk]
        cases hL : numOf r "Length (minutes)" with
        | none => simpa [hk, hL] using ih
        | some L =>
          cases hv : numOf r c with
          | none => simpa [hk, hL, hv] using ih
          | some v => simpa [hk, hL, hv] using ih
      · simp only [gatedContrib, hk, withLen]
        have hne : ¬ (some k0 = some k) := by simpa using hkk
        cases hL : numOf r "Length (minutes)" with
        | none => simpa [hne] using ih
        | some L =>
          cases hv : numOf r c with
          | none => simpa [hne] using ih
          | some v => simpa [hne, hkk] using ih

theorem contribVals_time (group_by : Option String) (rows : List Row) (k : Val) :
    contribVals (timeContrib group_by) k rows =
      presentVals rows group_by k "Length (minutes)" := by
  induction rows with
  | nil => rfl
  | cons r rest ih =>
    unfold contribVals presentVals groupRows at ih ⊢
    rw [List.filterMap_cons, List.filter_cons]
    cases hk : keyOfP group_by r with
    | none =>
      simp only [timeContrib, hk]
      simpa [hk] using ih
    | some k0 =>
      by_cases hkk : k0 = k
      · subst hkk
        simp only [timeContrib, hk]
        cases hL : numOf r "Length (minutes)" with
        | none => simpa [hk, hL] using ih
        | some L => simpa [hk, hL] using ih
      · have hne : ¬ (some k0 = some k) := by simpa using hkk
        simp only [timeContrib, hk]
        cases hL : numOf r "Length (minutes)" with
        | none => simpa [hne] using ih
        | some L => simpa [hne, hkk] using ih

theorem contribVals_dist (group_by : Option String) (rows : List Row) (k : Val) :
    contribVals (distContrib group_by) k rows =
      presentVals rows group_by k "Distance (mi)" := by
  induction rows with
  | nil => rfl
  | cons r rest ih =>
    unfold contribVals presentVals groupRows at ih ⊢
    rw [List.filterMap_cons, List.filter_cons]
    cases hk : keyOfP group_by r with
    | none =>
      simp only [distContrib, hk]
      simpa [hk] using ih
    | some k0 =>
      by_cases hkk : k0 = k
      · subst hkk
        simp only [distContrib, hk]
        cases hL : numOf r "Distance (mi)" with
        | none => simpa [hk, hL] using ih
        | some v => simpa [hk, hL] using ih
      · have hne : ¬ (some k0 = some k) := by simpa using hkk
        simp only [distContrib, hk]
        cases hL : numOf r "Distance (mi)" with
        | none => simpa [hne] using ih
        | some v => simpa [hne, hkk] using ih

theorem contribVals_w (group_by : Option String) (rows : List Row) (k : Val) :
    contribVals (wContrib group_by) k rows =
      (groupRows rows group_by k).map fun _ => (1 : ℕ) := by
  induction rows with
  | nil => rfl
  | cons r rest ih =>
    unfold contribVals groupRows at ih ⊢
    rw [List.filterMap_cons, List.filter_cons]
    cases hk : keyOfP group_by r with
    | none =>
      simp only [wContrib, hk]
      simpa [hk] using ih
    | some k0 =>
      by_cases hkk : k0 = k
      · subst hkk
        simp only [wContrib, hk]
        simpa [hk] using ih
      · have hne : ¬ (some k0 = some k) := by simpa using hkk
        simp only [wContrib, hk]
        simpa [hne, hkk] using ih

/-!
The accumulator dicts after the whole loop, in terms of the spec-side
value lists.
-/

theorem foldP_workouts (rows : List Row) (group_by : Option String) (k : Val) :
    getAcc (foldP rows group_by).total_workouts k =
      mergeOpt none ((groupRows rows group_by k).map fun _ => (1 : ℕ)) := by
  unfold foldP
  rw [getAcc_foldP group_by (fun st => st.total_workouts) (wContrib group_by)
    (fun st r => stepP_tw group_by st r) rows initialAcc k, contribVals_w]
  rfl

theorem foldP_time (rows : List Row) (group_by : Option String) (k : Val) :
    getAcc (foldP rows group_by).total_time k =
      mergeOpt none (presentVals rows group_by k "Length (minutes)") := by
  unfold foldP
  rw [getAcc_foldP group_by (fun st => st.total_time) (timeContrib group_by)
    (fun st r => stepP_tt group_by st r) rows initialAcc k, contribVals_time]
  rfl

theorem foldP_dist (rows : List Row) (group_by : Option String) (k : Val) :
    getAcc (foldP rows group_by).total_distance k =
      mergeOpt none (presentVals rows group_by k "Distance (mi)") := by
  unfold foldP
  rw [getAcc_foldP group_by (fun st => st.total_distance) (distContrib group_by)
    (fun st r => stepP_td group_by st r) rows initialAcc k, contribVals_dist]
  rfl

theorem foldP_output (rows : List Row) (group_by : Option String) (k : Val) :
    getAcc (foldP rows group_by).total_output k =
      mergeOpt none (weightedVals rows group_by k "Total Output" fun _ v => v) := by
  unfold foldP
  rw [getAcc_foldP group_by (fun st => st.total_output)
    (fun r => gatedContrib group_by r "Total Output" fun _ v => v)
    (fun st r => stepP_to group_by st r) rows initialAcc k, contribVals_gated]
  rfl

theorem foldP_output_minutes (rows : List Row) (group_by : Option String) (k : Val) :
    getAcc (foldP rows group_by).total_output_minutes k =
      mergeOpt none (weightedVals rows group_by k "Total Output" fun L _ => L) := by
  unfold foldP
  rw [getAcc_foldP group_by (fun st => st.total_output_minutes)
    (fun r => gatedContrib group_by r "Total Output" fun L _ => L)
    (fun st r => stepP_tom group_by st r) rows initialAcc k, contribVals_gated]
  rfl

theorem foldP_calories (rows : List Row) (group_by : Option String) (k : Val) :
    getAcc (foldP rows group_by).total_calories k =
      mergeOpt none (weightedVals rows group_by k "Calories Burned" fun _ v => v) := by
  unfold foldP
  rw [getAcc_foldP group_by (fun st => st.total_calories)
    (fun r => gatedContrib group_by r "Calories Burned" fun _ v => v)
    (fun st r => stepP_tc group_by st r) rows initialAcc k, contribVals_gated]
  rfl

theorem foldP_calories_minutes (rows : List Row) (group_by : Option String) (k : Val) :
    getAcc (foldP rows group_by).total_calories_minutes k =
      mergeOpt none (weightedVals rows group_by k "Calories Burned" fun L _ => L) := by
  unfold foldP
  rw [getAcc_foldP group_by (fun st => st.total_calories_minutes)
    (fun r => gatedContrib group_by r "Calories Burned" fun L _ => L)
    (fun st r => stepP_tcm group_by st r) rows initialAcc k, contribVals_gated]
  rfl

theorem foldP_hr (rows : List Row) (group_by : Option String) (k : Val) :
    getAcc (foldP rows group_by).total_hr k =
      mergeOpt none (weightedVals rows group_by k "Avg. Heartrate" fun L v => L * v) := by
  unfold foldP
  rw [getAcc_foldP group_by (fun st => st.total_hr)
    (fun r => gatedContrib group_by r "Avg. Heartrate" fun L v => L * v)
    (fun st r => stepP_th group_by st r) rows initialAcc k, contribVals_gated]
  rfl

theorem foldP_hr_minutes (rows : List Row) (group_by : Option String) (k : Val) :
    getAcc (foldP rows group_by).total_hr_minutes k =
      mergeOpt none (weightedVals rows group_by k "Avg. Heartrate" fun L _ => L) := by
  unfold foldP
  rw [getAcc_foldP group_by (fun st => st.total_hr_minutes)
    (fun r => gatedContrib group_by r "Avg. Heartrate" fun L _ => L)
    (fun st r => stepP_thm group_by st r) rows initialAcc k, contribVals_gated]
  rfl

theorem foldP_speed (rows : List Row) (group_by : Option String) (k : Val) :
    getAcc (foldP rows group_by).total_speed k =
      mergeOpt none (weightedVals rows group_by k "Avg. Speed (mph)" fun L v => L * v) := by
  unfold foldP
  rw [getAcc_foldP group_by (fun st => st.total_speed)
    (fun r => gatedContrib group_by r "Avg. Speed (mph)" fun L v => L * v)
    (fun st r => stepP_ts group_by st r) rows initialAcc k, contribVals_gated]
  rfl

theorem foldP_speed_minutes (rows : List Row) (group_by : Option String) (k : Val) :
    getAcc (foldP rows group_by).total_speed_minutes k =
      mergeOpt none (weightedVals rows group_by k "Avg. Speed (mph)" fun L _ => L) := by
  unfold foldP
  rw [getAcc_foldP group_by (fun st => st.total_speed_minutes)
    (fun r => gatedContrib group_by r "Avg. Speed (mph)" fun L _ => L)
    (fun st r => stepP_tsm group_by st r) rows initialAcc k, contribVals_gated]
  rfl

theorem foldP_cadence (rows : List Row) (group_by : Option String) (k : Val) :
    getAcc (foldP rows group_by).total_cadence k =
      mergeOpt none (weightedVals rows group_by k "Avg. Cadence (RPM)" fun L v => L * v) := by
  unfold foldP
  rw [getAcc_foldP group_by (fun st => st.total_cadence)
    (fun r => gatedContrib group_by r "Avg. Cadence (RPM)" fun L v => L * v)
    (fun st r => stepP_tcd group_by st r) rows initialAcc k, contribVals_gated]
  rfl

theorem foldP_cadence_minutes (rows : List Row) (group_by : Option String) (k : Val) :
    getAcc (foldP rows group_by).total_cadence_minutes k =
      mergeOpt none (weightedVals rows group_by k "Avg. Cadence (RPM)" fun L _ => L) := by
  unfold foldP
  rw [getAcc_foldP group_by (fun st => st.total_cadence_minutes)
    (fun r => gatedContrib group_by r "Avg. Cadence (RPM)" fun L _ => L)
    (fun st r => stepP_tcdm group_by st r) rows initialAcc k, contribVals_gated]
  rfl

theorem mergeOpt_none_cons {M : Type} [AddCommMonoid M] (v : M) (vs : List M) :
    mergeOpt none (v :: vs) = some ((v :: vs).sum) := rfl

theorem mergeOpt_none_ne_nil {M : Type} [AddCommMonoid M] (vs : List M) (h : vs ≠ []) :
    mergeOpt none vs = some vs.sum := by
  cases vs with
  | nil => exact absurd rfl h
  | cons v vs => rfl

theorem pdiv_val (a b : ℚ) (hb : b ≠ 0) : pdiv (some a) (some b) = RatioVal.val (a / b) := by
  simp [pdiv, hb]

theorem sum_map_one {α : Type} (l : List α) : (l.map fun _ => (1 : ℕ)).sum = l.length := by
  induction l with
  | nil => rfl
  | cons a as ih => simp [ih, Nat.add_comm]

theorem weightedVals_length (rows : List Row) (group_by : Option String) (k : Val)
    (c : String) (f : ℚ → ℚ → ℚ) :
    (weightedVals rows group_by k c f).length =
      ((groupRows rows group_by k).filter fun r =>
        ((numOf r "Length (minutes)").isSome && (numOf r c).isSome)).length := by
  unfold weightedVals
  generalize groupRows rows group_by k = l
  induction l with
  | nil => rfl
  | cons r rest ih =>
    rw [List.filterMap_cons, List.filter_cons]
    cases hL : numOf r "Length (minutes)" with
    | none => simpa [hL] using ih
    | some L =>
      cases hv : numOf r c with
      | none => simpa [hL, hv] using ih
      | some v => simpa [hL, hv] using ih

theorem weightedVals_ne_nil (rows : List Row) (group_by : Option String) (k : Val)
    (c : String) (f g : ℚ → ℚ → ℚ) (h : weightedVals rows group_by k c f ≠ []) :
    weightedVals rows group_by k c g ≠ [] := by
  intro hg
  apply h
  have hf := weightedVals_length rows group_by k c f
  have hgl := weightedVals_length rows group_by k c g
  rw [hg] at hgl
  exact List.eq_nil_of_length_eq_zero (by rw [hf, ← hgl]; rfl)

/-- The Series-division of a numerator/denominator accumulator pair, as
a function of the spec-side weighted value lists, when the accumulated
weighting minutes are nonzero. -/
theorem pdiv_weighted (rows : List Row) (group_by : Option String) (k : Val)
    (c : String) (fnum fden : ℚ → ℚ → ℚ)
    (hden : (weightedVals rows group_by k c fden).sum ≠ 0) :
    pdiv (mergeOpt none (weightedVals rows group_by k c fnum))
         (mergeOpt none (weightedVals rows group_by k c fden)) =
      RatioVal.val ((weightedVals rows group_by k c fnum).sum /
        (weightedVals rows group_by k c fden).sum) := by
  have hdnil : weightedVals rows group_by k c fden ≠ [] := by
    intro h
    rw [h] at hden
    exact hden rfl
  have hnnil := weightedVals_ne_nil rows group_by k c fden fnum hdnil
  rw [mergeOpt_none_ne_nil _ hdnil, mergeOpt_none_ne_nil _ hnnil, pdiv_val _ _ hden]

theorem sum_workouts_aggregated (st : AccState) :
    ((aggregated_df st).map fun p => p.2.total_workouts).sum =
      sndSum st.total_workouts := by
  unfold aggregated_df sndSum
  generalize st.total_workouts = l
  induction l with
  | nil => rfl
  | cons p rest ih =>
    simp only [List.map_cons, List.sum_cons, ih]
    simp [summaryAt]

theorem wContrib_count (group_by : Option String) (rows : List Row) :
    ((rows.filterMap (wContrib group_by)).map Prod.snd).sum =
      (rows.filter fun r => (keyOfP group_by r).isSome).length := by
  induction rows with
  | nil => rfl
  | cons r rest ih =>
    rw [List.filterMap_cons, List.filter_cons]
    cases hk : keyOfP group_by r with
    | none => simpa [wContrib, hk] using ih
    | some k => simp [wContrib, hk, ih, Nat.add_comm]

theorem foldP_workouts_length (rows : List Row) (group_by : Option String) (k : Val)
    (n : ℕ) (h : getAcc (foldP rows group_by).total_workouts k = some n) :
    n = (groupRows rows group_by k).length ∧ groupRows rows group_by k ≠ [] := by
  rw [foldP_workouts] at h
  cases hg : groupRows rows group_by k with
  | nil => rw [hg] at h; cases h
  | cons a as =>
    rw [hg] at h
    rw [List.map_cons, mergeOpt_none_cons] at h
    have hn := Option.some.inj h
    constructor
    · rw [← hn]
      simp [sum_map_one, Nat.add_comm]
    · simp

/-!
Concrete test table: the spec's three-record scenario, with
`length_minutes = [30, 60, absent]` and `calories_burned = [300, 900, 500]`.
-/

/-- A workout row with the seven numeric columns of the export. -/
def mkRow (dist len out cal hr spd cad : Option ℚ) : Row :=
  [("Distance (mi)", dist.map Val.rat),
   ("Length (minutes)", len.map Val.rat),
   ("Total Output", out.map Val.rat),
   ("Calories Burned", cal.map Val.rat),
   ("Avg. Heartrate", hr.map Val.rat),
   ("Avg. Speed (mph)", spd.map Val.rat),
   ("Avg. Cadence (RPM)", cad.map Val.rat)]

def demoRows : List Row :=
  [mkRow none (some 30) none (some 300) none none none,
   mkRow none (some 60) none (some 900) none none none,
   mkRow none none none (some 500) none none none]

/-- The all-time summary the source computes for `demoRows`: 3 workouts,
90 minutes, 1200 calories (record 3 excluded), 1200/90 calories per
minute. -/
def demoSummary : GroupSummary :=
  { total_workouts := 3
    total_minutes := some 90
    total_distance := none
    total_output := none
    total_calories := some 1200
    output_per_minute := RatioVal.absent
    calories_per_minute := RatioVal.val (1200 / 90)
    avg_heartrate := RatioVal.absent
    avg_speed := RatioVal.absent
    avg_cadence := RatioVal.absent }

example : Aggregation demoRows none = Except.ok [(Val.str "All Time", demoSummary)] := by
  with_unfolding_all decide

theorem res_eq_of_ok (rows : List Row) (group_by : Option String)
    (res : List (Val × GroupSummary))
    (hwf : ∀ r ∈ rows, WFRow group_by r)
    (hok : Aggregation rows group_by = Except.ok res) :
    res = aggregated_df (foldP rows group_by) := by
  have h := Aggregation_ok rows group_by hwf
  rw [hok] at h
  exact Except.ok.inj h

theorem nodup_foldP (rows : List Row) (group_by : Option String) :
    (accKeys ((foldP rows group_by).total_workouts)).Nodup := by
  unfold foldP
  exact nodup_foldP_workouts group_by rows initialAcc (by simp [initialAcc, accKeys])

/-- Claim C1: for every group of an `Aggregation` result, the
calories-per-minute column is the sum of calories over the records with
both calories and length present, divided by the sum of lengths over
that same record set, and output-per-minute is the analogous ratio for
total output; and on the three-record demo table the all-time summary
is 3 workouts, 90 minutes, 1200 calories and 1200/90 calories per
minute. -/
theorem claim_C1_weighted_ratios (rows : List Row) (group_by : Option String)
    (res : List (Val × GroupSummary)) (k : Val) (s : GroupSummary)
    (hwf : ∀ r ∈ rows, WFRow group_by r)
    (hok : Aggregation rows group_by = Except.ok res)
    (hmem : (k, s) ∈ res) :
    ((weightedVals rows group_by k "Calories Burned" fun L _ => L).sum ≠ 0 →
      s.calories_per_minute = RatioVal.val
        ((weightedVals rows group_by k "Calories Burned" fun _ v => v).sum /
         (weightedVals rows group_by k "Calories Burned" fun L _ => L).sum)) ∧
    ((weightedVals rows group_by k "Total Output" fun L _ => L).sum ≠ 0 →
      s.output_per_minute = RatioVal.val
        ((weightedVals rows group_by k "Total Output" fun _ v => v).sum /
         (weightedVals rows group_by k "Total Output" fun L _ => L).sum)) ∧
    Aggregation demoRows none = Except.ok [(Val.str "All Time", demoSummary)] := by
  rw [res_eq_of_ok rows group_by res hwf hok] at hmem
  obtain ⟨n, hg, rfl⟩ := (mem_aggregated_df _ _ _ (nodup_foldP rows group_by)).mp hmem
  refine ⟨fun hcal => ?_, fun hout => ?_, by with_unfolding_all decide⟩
  · show pdiv (getAcc (foldP rows group_by).total_calories k)
      (getAcc (foldP rows group_by).total_calories_minutes k) = _
    rw [foldP_calories, foldP_calories_minutes]
    exact pdiv_weighted rows group_by k "Calories Burned" (fun _ v => v) (fun L _ => L) hcal
  · show pdiv (getAcc (foldP rows group_by).total_output k)
      (getAcc (foldP rows group_by).total_output_minutes k) = _
    rw [foldP_output, foldP_output_minutes]
    exact pdiv_weighted rows group_by k "Total Output" (fun _ v => v) (fun L _ => L) hout

theorem claim_C1_witness :
    demoSummary.calories_per_minute = RatioVal.val
      ((weightedVals demoRows none (Val.str "All Time") "Calories Burned" fun _ v => v).sum /
       (weightedVals demoRows none (Val.str "All Time") "Calories Burned" fun L _ => L).sum) ∧
    demoSummary.total_workouts = 3 ∧
    demoSummary.total_minutes = some 90 ∧
    demoSummary.total_calories = some 1200 ∧
    demoSummary.calories_per_minute = RatioVal.val (1200 / 90) := by
  have h := claim_C1_weighted_ratios demoRows none
    [(Val.str "All Time", demoSummary)] (Val.str "All Time") demoSummary
    (by with_unfolding_all decide) (by with_unfolding_all decide)
    (by with_unfolding_all decide)
  exact ⟨h.1 (by with_unfolding_all decide), rfl, rfl, rfl, rfl⟩

/-- Claim C2: the group counts sum to the number of records with a
present group key; each group counts exactly the records keyed to it
(records with an absent key appear in no group); and with no grouping
every record is counted under the single all-time group. -/
theorem claim_C2_workout_count (rows : List Row) (group_by : Option String)
    (res : List (Val × GroupSummary))
    (hwf : ∀ r ∈ rows, WFRow group_by r)
    (hok : Aggregation rows group_by = Except.ok res) :
    ((res.map fun p => p.2.total_workouts).sum =
      (rows.filter fun r => (keyOfP group_by r).isSome).length) ∧
    (∀ k s, (k, s) ∈ res → s.total_workouts = (groupRows rows group_by k).length) ∧
    (group_by = none →
      (rows.filter fun r => (keyOfP group_by r).isSome).length = rows.length) := by
  have hres := res_eq_of_ok rows group_by res hwf hok
  subst hres
  refine ⟨?_, ?_, ?_⟩
  · rw [sum_workouts_aggregated]
    unfold foldP
    rw [sndSum_foldP group_by (fun st => st.total_workouts) (wContrib group_by)
      (fun st r => stepP_tw group_by st r) rows initialAcc, wContrib_count]
    simp [sndSum, initialAcc]
  · intro k s hmem
    obtain ⟨n, hg, rfl⟩ := (mem_aggregated_df _ _ _ (nodup_foldP rows group_by)).mp hmem
    exact (foldP_workouts_length rows group_by k n hg).1
  · rintro rfl
    have hall : ∀ r ∈ rows, ((keyOfP none r).isSome = true) := fun r _ => rfl
    rw [List.filter_eq_self.mpr hall]

theorem claim_C2_witness :
    (([(Val.str "All Time", demoSummary)].map fun p => p.2.total_workouts).sum =
      (demoRows.filter fun r => (keyOfP none r).isSome).length) ∧
    demoSummary.total_workouts = (groupRows demoRows none (Val.str "All Time")).length ∧
    (demoRows.filter fun r => (keyOfP none r).isSome).length = demoRows.length := by
  have h := claim_C2_workout_count demoRows none [(Val.str "All Time", demoSummary)]
    (by with_unfolding_all decide) (by with_unfolding_all decide)
  exact ⟨h.1, h.2.1 _ _ (by with_unfolding_all decide), h.2.2 rfl⟩

theorem foldP_all_none (group_by : Option String) (rows : List Row) :
    (∀ r ∈ rows, keyOfP group_by r = none) →
      ∀ st : AccState, rows.foldl (stepP group_by) st = st := by
  induction rows with
  | nil => intro h st; rfl
  | cons r rest ih =>
    intro h st
    rw [List.foldl_cons]
    have hr : stepP group_by st r = st := by
      unfold stepP
      rw [h r (List.mem_cons_self r rest)]
    rw [hr]
    exact ih (fun x hx => h x (List.mem_cons_of_mem r hx)) st

/-- Claim C10: a key appears in the result exactly when some record is
keyed to it, every emitted summary counts at least one workout, and a
table in which no record has a present group key (in particular an
empty table, even for the all-time aggregation) yields an empty result. -/
theorem claim_C10_group_keys (rows : List Row) (group_by : Option String)
    (res : List (Val × GroupSummary))
    (hwf : ∀ r ∈ rows, WFRow group_by r)
    (hok : Aggregation rows group_by = Except.ok res) :
    (∀ k, (∃ s, (k, s) ∈ res) ↔ ∃ r ∈ rows, keyOfP group_by r = some k) ∧
    (∀ k s, (k, s) ∈ res → 1 ≤ s.total_workouts) ∧
    ((∀ r ∈ rows, keyOfP group_by r = none) → res = []) := by
  have hres := res_eq_of_ok rows group_by res hwf hok
  subst hres
  refine ⟨?_, ?_, ?_⟩
  · intro k
    constructor
    · rintro ⟨s, hmem⟩
      obtain ⟨n, hg, rfl⟩ := (mem_aggregated_df _ _ _ (nodup_foldP rows group_by)).mp hmem
      obtain ⟨r, hr⟩ := List.exists_mem_of_ne_nil _ (foldP_workouts_length rows group_by k n hg).2
      have hf := List.mem_filter.mp hr
      exact ⟨r, hf.1, of_decide_eq_true hf.2⟩
    · rintro ⟨r, hr, hk⟩
      have hne : groupRows rows group_by k ≠ [] := by
        intro hnil
        have hmem2 : r ∈ groupRows rows group_by k :=
          List.mem_filter.mpr ⟨hr, decide_eq_true hk⟩
        rw [hnil] at hmem2
        cases hmem2
      have hg : getAcc (foldP rows group_by).total_workouts k =
          some ((groupRows rows group_by k).map fun _ => (1 : ℕ)).sum := by
        rw [foldP_workouts]
        refine mergeOpt_none_ne_nil _ ?_
        intro hmapnil
        exact hne (List.map_eq_nil_iff.mp hmapnil)
      exact ⟨summaryAt (foldP rows group_by) k _,
        (mem_aggregated_df _ _ _ (nodup_foldP rows group_by)).mpr ⟨_, hg, rfl⟩⟩
  · intro k s hmem
    obtain ⟨n, hg, rfl⟩ := (mem_aggregated_df _ _ _ (nodup_foldP rows group_by)).mp hmem
    obtain ⟨h1, h2⟩ := foldP_workouts_length rows group_by k n hg
    show 1 ≤ n
    rw [h1]
    exact List.length_pos.mpr h2
  · intro hall
    show aggregated_df (foldP rows group_by) = []
    unfold foldP
    rw [foldP_all_none group_by rows hall initialAcc]
    rfl

theorem claim_C10_witness :
    ((∃ s, (Val.str "All Time", s) ∈ ([] : List (Val × GroupSummary))) ↔
      ∃ r ∈ ([] : List Row), keyOfP none r = some (Val.str "All Time")) ∧
    (([] : List (Val × GroupSummary)) = []) := by
  have h := claim_C10_group_keys [] none [] (by simp) rfl
  exact ⟨h.1 _, h.2.2 (by simp)⟩

/-- Claim C5: a record whose length is absent but whose group key is
present increments its group's workout count, contributes its distance
when present, and leaves every other accumulator — including every
weighted-average numerator and denominator — untouched. -/
theorem claim_C5_absent_length (group_by : Option String) (st : AccState) (r : Row)
    (k : Val)
    (hwf : WFRow group_by r)
    (hkey : keyOfP group_by r = some k)
    (hlen : numOf r "Length (minutes)" = none) :
    stepRow group_by st r = Except.ok (stepP group_by st r) ∧
    (stepP group_by st r).total_workouts = bump st.total_workouts k 1 ∧
    (stepP group_by st r).total_distance =
      optBump st.total_distance ((numOf r "Distance (mi)").map fun v => (k, v)) ∧
    (stepP group_by st r).total_time = st.total_time ∧
    (stepP group_by st r).total_output = st.total_output ∧
    (stepP group_by st r).total_output_minutes = st.total_output_minutes ∧
    (stepP group_by st r).total_calories = st.total_calories ∧
    (stepP group_by st r).total_calories_minutes = st.total_calories_minutes ∧
    (stepP group_by st r).total_hr = st.total_hr ∧
    (stepP group_by st r).total_hr_minutes = st.total_hr_minutes ∧
    (stepP group_by st r).total_speed = st.total_speed ∧
    (stepP group_by st r).total_speed_minutes = st.total_speed_minutes ∧
    (stepP group_by st r).total_cadence = st.total_cadence ∧
    (stepP group_by st r).total_cadence_minutes = st.total_cadence_minutes := by
  refine ⟨stepRow_eq_stepP group_by st r hwf, ?_⟩
  simp only [stepP, hkey, hlen]
  exact ⟨rfl, rfl, rfl, rfl, rfl, rfl, rfl, rfl, rfl, rfl, rfl, rfl, rfl⟩

theorem claim_C5_witness :
    stepRow none initialAcc (mkRow (some 5) none (some 100) (some 500) none none none) =
      Except.ok (stepP none initialAcc
        (mkRow (some 5) none (some 100) (some 500) none none none)) ∧
    (stepP none initialAcc (mkRow (some 5) none (some 100) (some 500) none none none)).total_workouts =
      bump initialAcc.total_workouts (Val.str "All Time") 1 ∧
    (stepP none initialAcc (mkRow (some 5) none (some 100) (some 500) none none none)).total_calories =
      initialAcc.total_calories ∧
    (stepP none initialAcc (mkRow (some 5) none (some 100) (some 500) none none none)).total_calories_minutes =
      initialAcc.total_calories_minutes := by
  have h := claim_C5_absent_length none initialAcc
    (mkRow (some 5) none (some 100) (some 500) none none none) (Val.str "All Time")
    (by with_unfolding_all decide) (by with_unfolding_all decide)
    (by with_unfolding_all decide)
  exact ⟨h.1, h.2.1, h.2.2.2.2.2.2.1, h.2.2.2.2.2.2.2.1⟩

/-- Claim C8, counterexample: on an empty table, grouping by a column
that does not exist raises nothing — the loop body never runs, so the
constructor succeeds with an empty result, contradicting the claim that
it fails with an error naming the unknown field. -/
theorem claim_C8_counterexample :
    Aggregation [] (some "nonexistent") = Except.ok [] := rfl

/-- Claim C8, amended: on well-formed rows the constructor never raises
for missing optional metric values; and when at least one record is
present and the requested truthy grouping column does not exist on it,
the constructor fails with the key-lookup error (pandas KeyError)
naming the unknown field. -/
theorem claim_C8_amended (rows : List Row) (group_by : Option String) (c : String)
    (r0 : Row) (rest : List Row) :
    ((∀ r ∈ rows, WFRow group_by r) → ∃ res, Aggregation rows group_by = Except.ok res) ∧
    (rows = r0 :: rest → group_by = some c → c ≠ "" → colGet r0 c = none →
      Aggregation rows group_by = Except.error c) := by
  constructor
  · intro hwf
    exact ⟨_, Aggregation_ok rows group_by hwf⟩
  · rintro rfl rfl hc hcol
    show Aggregation (r0 :: rest) (some c) = Except.error c
    unfold Aggregation
    rw [List.foldlM_cons]
    have hkey2 : keyOf (some c) r0 = Except.error c := by
      show (if c = "" then Except.ok (some (Val.str "All Time")) else rowGet r0 c) =
        Except.error c
      rw [if_neg hc]
      unfold rowGet
      rw [hcol]
    have hstep : stepRow (some c) initialAcc r0 = Except.error c := by
      unfold stepRow
      rw [hkey2]
      rfl
    rw [hstep]
    rfl

theorem claim_C8_witness :
    (∃ res, Aggregation demoRows none = Except.ok res) ∧
    Aggregation [mkRow none none none none none none none] (some "no such column") =
      Except.error "no such column" := by
  have h1 := claim_C8_amended demoRows none "x" (mkRow none none none none none none none) []
  have h2 := claim_C8_amended [mkRow none none none none none none none]
    (some "no such column") "no such column" (mkRow none none none none none none none) []
  exact ⟨h1.1 (by with_unfolding_all decide),
    h2.2 rfl rfl (by with_unfolding_all decide) (by with_unfolding_all decide)⟩

theorem filterMap_congr_const {α β : Type} (l : List α) (f : α → Option β) (c : β)
    (h : ∀ x ∈ l, f x = some c) : l.filterMap f = l.map fun _ => c := by
  induction l with
  | nil => rfl
  | cons a as ih =>
    rw [List.filterMap_cons, h a (List.mem_cons_self a as), List.map_cons,
      ih (fun x hx => h x (List.mem_cons_of_mem a hx))]

theorem sum_map_const_q {α : Type} (l : List α) (c : ℚ) :
    (l.map fun _ => c).sum = (l.length : ℚ) * c := by
  induction l with
  | nil => simp
  | cons a as ih =>
    simp only [List.map_cons, List.sum_cons, List.length_cons, ih]
    push_cast
    ring

/-- Claim C4: avg_heartrate, avg_speed and avg_cadence are the
length-weighted averages Σ(length × metric)/Σ(length) over the records
with both fields present; and a group in which every record has the
same positive length m and the same heartrate v averages to exactly v. -/
theorem claim_C4_weighted_averages (rows : List Row) (group_by : Option String)
    (res : List (Val × GroupSummary)) (k : Val) (s : GroupSummary) (m v : ℚ)
    (hwf : ∀ r ∈ rows, WFRow group_by r)
    (hok : Aggregation rows group_by = Except.ok res)
    (hmem : (k, s) ∈ res) :
    ((weightedVals rows group_by k "Avg. Heartrate" fun L _ => L).sum ≠ 0 →
      s.avg_heartrate = RatioVal.val
        ((weightedVals rows group_by k "Avg. Heartrate" fun L w => L * w).sum /
         (weightedVals rows group_by k "Avg. Heartrate" fun L _ => L).sum)) ∧
    ((weightedVals rows group_by k "Avg. Speed (mph)" fun L _ => L).sum ≠ 0 →
      s.avg_speed = RatioVal.val
        ((weightedVals rows group_by k "Avg. Speed (mph)" fun L w => L * w).sum /
         (weightedVals rows group_by k "Avg. Speed (mph)" fun L _ => L).sum)) ∧
    ((weightedVals rows group_by k "Avg. Cadence (RPM)" fun L _ => L).sum ≠ 0 →
      s.avg_cadence = RatioVal.val
        ((weightedVals rows group_by k "Avg. Cadence (RPM)" fun L w => L * w).sum /
         (weightedVals rows group_by k "Avg. Cadence (RPM)" fun L _ => L).sum)) ∧
    ((∀ r ∈ rows, keyOfP group_by r = some k →
        numOf r "Length (minutes)" = some m ∧ numOf r "Avg. Heartrate" = some v) →
      0 < m → s.avg_heartrate = RatioVal.val v) := by
  rw [res_eq_of_ok rows group_by res hwf hok] at hmem
  obtain ⟨n, hg, rfl⟩ := (mem_aggregated_df _ _ _ (nodup_foldP rows group_by)).mp hmem
  refine ⟨fun hhr => ?_, fun hsp => ?_, fun hcd => ?_, fun huni hm => ?_⟩
  · show pdiv (getAcc (foldP rows group_by).total_hr k)
      (getAcc (foldP rows group_by).total_hr_minutes k) = _
    rw [foldP_hr, foldP_hr_minutes]
    exact pdiv_weighted rows group_by k "Avg. Heartrate" (fun L w => L * w) (fun L _ => L) hhr
  · show pdiv (getAcc (foldP rows group_by).total_speed k)
      (getAcc (foldP rows group_by).total_speed_minutes k) = _
    rw [foldP_speed, foldP_speed_minutes]
    exact pdiv_weighted rows group_by k "Avg. Speed (mph)" (fun L w => L * w) (fun L _ => L) hsp
  · show pdiv (getAcc (foldP rows group_by).total_cadence k)
      (getAcc (foldP rows group_by).total_cadence_minutes k) = _
    rw [foldP_cadence, foldP_cadence_minutes]
    exact pdiv_weighted rows group_by k "Avg. Cadence (RPM)" (fun L w => L * w) (fun L _ => L) hcd
  · have hne := (foldP_workouts_length rows group_by k n hg).2
    have hgr : ∀ r ∈ groupRows rows group_by k,
        numOf r "Length (minutes)" = some m ∧ numOf r "Avg. Heartrate" = some v := by
      intro r hr
      have hf := List.mem_filter.mp hr
      exact huni r hf.1 (of_decide_eq_true hf.2)
    have hnum : weightedVals rows group_by k "Avg. Heartrate" (fun L w => L * w) =
        (groupRows rows group_by k).map fun _ => m * v := by
      unfold weightedVals
      refine filterMap_congr_const _ _ _ (fun r hr => ?_)
      rw [(hgr r hr).1, (hgr r hr).2]
      rfl
    have hden : weightedVals rows group_by k "Avg. Heartrate" (fun L _ => L) =
        (groupRows rows group_by k).map fun _ => m := by
      unfold weightedVals
      refine filterMap_congr_const _ _ _ (fun r hr => ?_)
      rw [(hgr r hr).1, (hgr r hr).2]
      rfl
    have hlq : ((groupRows rows group_by k).length : ℚ) ≠ 0 := by
      have := List.length_pos.mpr hne
      positivity
    show pdiv (getAcc (foldP rows group_by).total_hr k)
      (getAcc (foldP rows group_by).total_hr_minutes k) = _
    rw [foldP_hr, foldP_hr_minutes, hnum, hden,
      mergeOpt_none_ne_nil _ (by simpa using hne),
      mergeOpt_none_ne_nil _ (by simpa using hne),
      sum_map_const_q, sum_map_const_q,
      pdiv_val _ _ (mul_ne_zero hlq (ne_of_gt hm))]
    congr 1
    rw [mul_div_mul_left _ _ hlq]
    exact mul_div_cancel_left₀ v (ne_of_gt hm)

def demo2Rows : List Row :=
  [mkRow none (some 30) (some 200) (some 300) (some 150) (some 17) (some 80),
   mkRow none (some 30) (some 400) (some 330) (some 150) (some 17) (some 80)]

/-- The all-time summary of `demo2Rows`: uniform lengths and metric
values, so the weighted averages degenerate to the common values. -/
def demo2Summary : GroupSummary :=
  { total_workouts := 2
    total_minutes := some 60
    total_distance := none
    total_output := some 600
    total_calories := some 630
    output_per_minute := RatioVal.val 10
    calories_per_minute := RatioVal.val (21 / 2)
    avg_heartrate := RatioVal.val 150
    avg_speed := RatioVal.val 17
    avg_cadence := RatioVal.val 80 }

theorem claim_C4_witness :
    demo2Summary.avg_heartrate = RatioVal.val
      ((weightedVals demo2Rows none (Val.str "All Time") "Avg. Heartrate" fun L w => L * w).sum /
       (weightedVals demo2Rows none (Val.str "All Time") "Avg. Heartrate" fun L _ => L).sum) ∧
    demo2Summary.avg_heartrate = RatioVal.val 150 ∧
    demo2Summary.avg_speed = RatioVal.val 17 ∧
    demo2Summary.avg_cadence = RatioVal.val 80 := by
  have h := claim_C4_weighted_averages demo2Rows none
    [(Val.str "All Time", demo2Summary)] (Val.str "All Time") demo2Summary 30 150
    (by with_unfolding_all decide) (by with_unfolding_all decide)
    (by with_unfolding_all decide)
  exact ⟨h.1 (by with_unfolding_all decide),
    h.2.2.2 (by with_unfolding_all decide) (by with_unfolding_all decide), rfl, rfl⟩

/-!
Calendar model for the derived time buckets of `process_workouts_df`
(src/main.py lines 96-123): proleptic-Gregorian day numbers as Python's
`date.toordinal`, weekday and ISO-calendar functions as `datetime`, and
the `%Y-%W-%w` strptime resolution the `c_week` lambda relies on.
-/

/-- Gregorian leap years. -/
def isLeap (y : Nat) : Bool :=
  (y % 4 == 0 && y % 100 != 0) || y % 400 == 0

/-- Days before the start of each month in a non-leap year. -/
def monthOffset : Nat → Nat
  | 1 => 0 | 2 => 31 | 3 => 59 | 4 => 90 | 5 => 120 | 6 => 151
  | 7 => 181 | 8 => 212 | 9 => 243 | 10 => 273 | 11 => 304 | _ => 334

/-- Ordinal day of the year, 1-based. -/
def dayOfYear (y m d : Nat) : Nat :=
  monthOffset m + (if 2 < m && isLeap y then 1 else 0) + d

/-- Python's `date.toordinal`: day 1 is 0001-01-01, a Monday. -/
def rataDie (y m d : Nat) : Nat :=
  365 * (y - 1) + (y - 1) / 4 - (y - 1) / 100 + (y - 1) / 400 + dayOfYear y m d

/-- Python's `date.fromordinal` (inverse of `rataDie`): the standard
days-to-civil conversion, shifted so the input is the rata-die number. -/
def civilFromRataDie (n : Nat) : Date :=
  let z := n + 305
  let era := z / 146097
  let doe := z % 146097
  let yoe := (doe - doe / 1460 + doe / 36524 - doe / 146096) / 365
  let y := yoe + era * 400
  let doy := doe - (365 * yoe + yoe / 4 - yoe / 100)
  let mp := (5 * doy + 2) / 153
  let d := doy - (153 * mp + 2) / 5 + 1
  let m := if mp < 10 then mp + 3 else mp - 9
  { year := if m ≤ 2 then y + 1 else y, month := m, day := d }

/-- Weekday of a rata-die day, Monday = 0 (Python's `date.weekday`). -/
def weekdayRD (n : Nat) : Nat := (n + 6) % 7

/-- Number of ISO weeks in a year: 53 when Jan 1 falls on Thursday, or
on Wednesday in a leap year; else 52. -/
def isoWeeksInYear (y : Nat) : Nat :=
  let wd := weekdayRD (rataDie y 1 1)
  if wd = 3 || (isLeap y && wd = 2) then 53 else 52

/-- ISO-8601 (year, week number) of a date, as Python's
`date.isocalendar` computes it. -/
def isocalendar (dt : Date) : Nat × Nat :=
  let doy := dayOfYear dt.year dt.month dt.day
  let wd := weekdayRD (rataDie dt.year dt.month dt.day) + 1
  let w := (doy + 10 - wd) / 7
  if w < 1 then (dt.year - 1, isoWeeksInYear (dt.year - 1))
  else if isoWeeksInYear dt.year < w then (dt.year + 1, 1)
  else (dt.year, w)

/-- CPython's `strptime` resolution of "%Y-%W-%w" with weekday `1`
(Monday): Monday of `%W`-week `W` of calendar year `y`, where week 1
starts at the first Monday of the year (`_calc_julian_from_U_or_W`),
with overflow past December rolling into the next year via the ordinal
arithmetic of `date.fromordinal`. -/
def strptimeYWMon (y W : Nat) : Date :=
  let firstWeekday := weekdayRD (rataDie y 1 1)
  let julian : Int :=
    if W = 0 then 1 - (firstWeekday : Int)
    else (1 : Int) + (((7 - firstWeekday) % 7 : Nat) : Int) + 7 * ((W : Int) - 1)
  civilFromRataDie ((rataDie y 1 1 : Int) + julian - 1).toNat

/-- The `c_week` column (lines 107-111 of src/main.py): format the
calendar year together with the ISO week number, and parse that back
with "%Y-%W-%w". -/
def c_week (dt : Date) : Date :=
  strptimeYWMon dt.year (isocalendar dt).2

/-- The Monday that begins the ISO week of a date: the week start the
claim specifies (resolve ISO (year, week) to the Monday beginning that
ISO week). -/
def isoWeekStart (dt : Date) : Date :=
  civilFromRataDie
    (rataDie dt.year dt.month dt.day - weekdayRD (rataDie dt.year dt.month dt.day))

example : rataDie 1970 1 1 = 719163 := by decide
example : civilFromRataDie 719163 = ⟨1970, 1, 1⟩ := by decide
example : weekdayRD (rataDie 2024 12 30) = 0 := by decide
example : isocalendar ⟨2021, 1, 1⟩ = (2020, 53) := by decide
example : isocalendar ⟨2019, 12, 30⟩ = (2020, 1) := by decide

/-- Claim C6, code evaluation at the failing input: 2024-12-30 belongs
to ISO week 1 of 2025, whose Monday is 2024-12-30 itself — but the
source's `c_week` pairs the calendar year 2024 with that ISO week
number under "%Y-%W-%w" and produces 2024-01-01, a date 364 days away,
contradicting the ISO bucketing the claim states.  (A second defect of
the same formula: for 2021-01-01, ISO week 53 of 2020, it rolls past
the end of 2021 and yields 2022-01-03.) -/
theorem claim_C6_week_bug :
    isocalendar ⟨2024, 12, 30⟩ = (2025, 1) ∧
    isoWeekStart ⟨2024, 12, 30⟩ = ⟨2024, 12, 30⟩ ∧
    c_week ⟨2024, 12, 30⟩ = ⟨2024, 1, 1⟩ ∧
    c_week ⟨2024, 12, 30⟩ ≠ isoWeekStart ⟨2024, 12, 30⟩ ∧
    c_week ⟨2021, 1, 1⟩ = ⟨2022, 1, 3⟩ := by
  refine ⟨by decide, by decide, by decide, by decide, by decide⟩

/-!
Timestamp handling.  The source's `parse_datetime` (lines 96-99 of
src/main.py) rewrites the compact parenthesized offset annotation of
Peloton timestamps ("(-05)" / "(+02)") into an explicit "(GMT-05)" form
with two `str.replace` calls, then hands the string to the external
`dateparser` library, and `pd.to_datetime(..., utc=True)` normalizes
the result to UTC.
-/

/-- `str.replace("(-", "(GMT-")`: one left-to-right non-overlapping
pass. -/
def replMinus (l : List Char) : List Char :=
  match l with
  | [] => []
  | [c] => [c]
  | c1 :: c2 :: rest =>
      if c1 = '(' ∧ c2 = '-' then
        '(' :: 'G' :: 'M' :: 'T' :: '-' :: replMinus rest
      else c1 :: replMinus (c2 :: rest)

/-- `str.replace("(+", "(GMT+")`. -/
def replPlus (l : List Char) : List Char :=
  match l with
  | [] => []
  | [c] => [c]
  | c1 :: c2 :: rest =>
      if c1 = '(' ∧ c2 = '+' then
        '(' :: 'G' :: 'M' :: 'T' :: '+' :: replPlus rest
      else c1 :: replPlus (c2 :: rest)

/-- Line 99 of src/main.py:
`date_str.replace("(-", "(GMT-").replace("(+", "(GMT+")`. -/
def fixTz (s : String) : String := ⟨replPlus (replMinus s.data)⟩

def digitCharAux : Nat → Char
  | 0 => '0' | 1 => '1' | 2 => '2' | 3 => '3' | 4 => '4'
  | 5 => '5' | 6 => '6' | 7 => '7' | 8 => '8' | _ => '9'

/-- Last decimal digit of a number, as a character. -/
def digitChar (n : Nat) : Char := digitCharAux (n % 10)

/-- Numeric value of a digit character. -/
def dval (c : Char) : Nat := c.toNat - 48

/-- Two-digit zero-padded rendering (of n % 100). -/
def pad2 (n : Nat) : List Char := [digitChar (n / 10), digitChar n]

/-- Four-digit zero-padded rendering (of n % 10000). -/
def pad4 (n : Nat) : List Char :=
  [digitChar (n / 1000), digitChar (n / 100), digitChar (n / 10), digitChar n]

def dec2 (a b : Char) : Nat := 10 * dval a + dval b

def dec4 (a b c d : Char) : Nat :=
  1000 * dval a + 100 * dval b + 10 * dval c + dval d

/-- A civil datetime as minutes since the rata-die epoch. -/
def civilMinutes (y mo d h mi : Nat) : Int :=
  (rataDie y mo d : Int) * 1440 + h * 60 + mi

/-- Signed offset minutes from a sign character. -/
def offMinutes (sg : Char) (m : Nat) : Int :=
  if sg = '-' then -(m : Int) else (m : Int)

/-- Modelled from the spec: the external `dateparser.parse` followed by
`pd.to_datetime(utc=True)` — library code that is not part of this
repository — restricted to the two timestamp shapes at issue: the
rewritten Peloton form "YYYY-MM-DD HH:MM (GMT±HH)" and the ISO-8601
form "YYYY-MM-DDTHH:MM±HH:MM".  Per the spec the string parses to a
timezone-aware instant normalized to UTC; the result is that instant in
minutes since the rata-die epoch, `none` for anything unrecognized. -/
def dateparserParse (s : String) : Option Int :=
  match s.data with
  | [y1, y2, y3, y4, '-', m1, m2, '-', d1, d2, ' ', h1, h2, ':', n1, n2,
     ' ', '(', 'G', 'M', 'T', sg, o1, o2, ')'] =>
      if (y1.isDigit && y2.isDigit && y3.isDigit && y4.isDigit &&
          m1.isDigit && m2.isDigit && d1.isDigit && d2.isDigit &&
          h1.isDigit && h2.isDigit && n1.isDigit && n2.isDigit &&
          o1.isDigit && o2.isDigit && (sg == '-' || sg == '+')) then
        some (civilMinutes (dec4 y1 y2 y3 y4) (dec2 m1 m2) (dec2 d1 d2)
            (dec2 h1 h2) (dec2 n1 n2) - offMinutes sg (60 * dec2 o1 o2))
      else none
  | [y1, y2, y3, y4, '-', m1, m2, '-', d1, d2, 'T', h1, h2, ':', n1, n2,
     sg, o1, o2, ':', p1, p2] =>
      if (y1.isDigit && y2.isDigit && y3.isDigit && y4.isDigit &&
          m1.isDigit && m2.isDigit && d1.isDigit && d2.isDigit &&
          h1.isDigit && h2.isDigit && n1.isDigit && n2.isDigit &&
          o1.isDigit && o2.isDigit && p1.isDigit && p2.isDigit &&
          (sg == '-' || sg == '+')) then
        some (civilMinutes (dec4 y1 y2 y3 y4) (dec2 m1 m2) (dec2 d1 d2)
            (dec2 h1 h2) (dec2 n1 n2) -
          offMinutes sg (60 * dec2 o1 o2 + dec2 p1 p2))
      else none
  | _ => none

/-- `parse_datetime` of src/main.py (lines 96-99): rewrite the compact
offset annotations, then parse. -/
def parse_datetime (date_str : String) : Option Int :=
  dateparserParse (fixTz date_str)

def sgChar (neg : Bool) : Char := if neg then '-' else '+'

/-- "YYYY-MM-DD HH:MM " — the part of a Peloton timestamp before the
offset annotation. -/
def tsPrefix (y mo d h mi : Nat) : List Char :=
  pad4 y ++ '-' :: pad2 mo ++ '-' :: pad2 d ++ ' ' :: pad2 h ++ ':' :: pad2 mi ++ [' ']

/-- A raw Peloton timestamp "YYYY-MM-DD HH:MM (-05)". -/
def renderCompact (y mo d h mi : Nat) (neg : Bool) (off : Nat) : String :=
  ⟨tsPrefix y mo d h mi ++ '(' :: sgChar neg :: pad2 off ++ [')']⟩

/-- The rewritten form "YYYY-MM-DD HH:MM (GMT-05)". -/
def renderGMT (y mo d h mi : Nat) (neg : Bool) (off : Nat) : String :=
  ⟨tsPrefix y mo d h mi ++ '(' :: 'G' :: 'M' :: 'T' :: sgChar neg :: pad2 off ++ [')']⟩

/-- The equivalent ISO-8601 string "YYYY-MM-DDTHH:MM-05:00". -/
def renderIso (y mo d h mi : Nat) (neg : Bool) (off : Nat) : String :=
  ⟨pad4 y ++ '-' :: pad2 mo ++ '-' :: pad2 d ++ 'T' :: pad2 h ++ ':' :: pad2 mi ++
    sgChar neg :: pad2 off ++ ':' :: '0' :: '0' :: []⟩

example : fixTz (renderCompact 2020 12 31 20 0 true 5) = renderGMT 2020 12 31 20 0 true 5 := by
  decide
example : parse_datetime (renderCompact 2020 12 31 20 0 true 5) =
    dateparserParse (renderIso 2020 12 31 20 0 true 5) := by
  decide

theorem digitCharAux_isDigit : ∀ m, m < 10 → (digitCharAux m).isDigit = true := by decide

theorem digitChar_isDigit (n : Nat) : (digitChar n).isDigit = true :=
  digitCharAux_isDigit _ (Nat.mod_lt _ (by decide))

theorem digitCharAux_vals : ∀ m, m < 10 → dval (digitCharAux m) = m := by decide

theorem dval_digitChar (n : Nat) : dval (digitChar n) = n % 10 :=
  digitCharAux_vals _ (Nat.mod_lt _ (by decide))

theorem digit_ne_paren (c : Char) (h : c.isDigit = true) : c ≠ '(' := by
  rintro rfl
  exact absurd h (by decide)

theorem digit_ne_plus (c : Char) (h : c.isDigit = true) : c ≠ '+' := by
  rintro rfl
  exact absurd h (by decide)

theorem dec2_pad2 (n : Nat) (h : n < 100) :
    dec2 (digitChar (n / 10)) (digitChar n) = n := by
  unfold dec2
  rw [dval_digitChar, dval_digitChar]
  omega

theorem dec4_pad4 (n : Nat) (h : n < 10000) :
    dec4 (digitChar (n / 1000)) (digitChar (n / 100)) (digitChar (n / 10)) (digitChar n) = n := by
  unfold dec4
  rw [dval_digitChar, dval_digitChar, dval_digitChar, dval_digitChar]
  omega

theorem mem_pad2 (c : Char) (n : Nat) (h : c ∈ pad2 n) : c.isDigit = true := by
  unfold pad2 at h
  rcases List.mem_cons.mp h with rfl | h2
  · exact digitChar_isDigit _
  · rcases List.mem_cons.mp h2 with rfl | h3
    · exact digitChar_isDigit _
    · cases h3

theorem mem_pad4 (c : Char) (n : Nat) (h : c ∈ pad4 n) : c.isDigit = true := by
  unfold pad4 at h
  rcases List.mem_cons.mp h with rfl | h2
  · exact digitChar_isDigit _
  · rcases List.mem_cons.mp h2 with rfl | h3
    · exact digitChar_isDigit _
    · rcases List.mem_cons.mp h3 with rfl | h4
      · exact digitChar_isDigit _
      · rcases List.mem_cons.mp h4 with rfl | h5
        · exact digitChar_isDigit _
        · cases h5

theorem tsPrefix_chars (y mo d h mi : Nat) :
    ∀ c ∈ tsPrefix y mo d h mi, c ≠ '(' ∧ c ≠ '+' := by
  intro c hc
  have hd : c.isDigit = true ∨ c = '-' ∨ c = ' ' ∨ c = ':' := by
    unfold tsPrefix at hc
    simp only [List.mem_append, List.mem_cons, List.not_mem_nil, or_false, or_assoc] at hc
    rcases hc with h2|h2|h2|h2|h2|h2|h2|h2|h2|h2
    · exact Or.inl (mem_pad4 c y h2)
    · subst h2; right; left; rfl
    · exact Or.inl (mem_pad2 c mo h2)
    · subst h2; right; left; rfl
    · exact Or.inl (mem_pad2 c d h2)
    · subst h2; right; right; left; rfl
    · exact Or.inl (mem_pad2 c h h2)
    · subst h2; right; right; right; rfl
    · exact Or.inl (mem_pad2 c mi h2)
    · subst h2; right; right; left; rfl
  rcases hd with h2 | rfl | rfl | rfl
  · exact ⟨digit_ne_paren c h2, digit_ne_plus c h2⟩
  · exact ⟨by decide, by decide⟩
  · exact ⟨by decide, by decide⟩
  · exact ⟨by decide, by decide⟩

theorem replMinus_skip (l : List Char) (h : ∀ c ∈ l, c ≠ '(') :
    ∀ m, replMinus (l ++ m) = l ++ replMinus m := by
  induction l with
  | nil => intro m; rfl
  | cons c1 rest ih =>
    intro m
    have hc1 : c1 ≠ '(' := h c1 (List.mem_cons_self _ _)
    have hrest : ∀ c ∈ rest, c ≠ '(' := fun c hcm => h c (List.mem_cons_of_mem _ hcm)
    cases hq : rest ++ m with
    | nil =>
      obtain ⟨hr, hm⟩ := List.append_eq_nil.mp hq
      subst hr; subst hm; rfl
    | cons c2 r2 =>
      show replMinus (c1 :: (rest ++ m)) = (c1 :: rest) ++ replMinus m
      rw [hq]
      simp only [replMinus]
      rw [if_neg (fun hand => hc1 hand.1), ← hq, ih hrest m]
      rfl

theorem replPlus_skip (l : List Char) (h : ∀ c ∈ l, c ≠ '(') :
    ∀ m, replPlus (l ++ m) = l ++ replPlus m := by
  induction l with
  | nil => intro m; rfl
  | cons c1 rest ih =>
    intro m
    have hc1 : c1 ≠ '(' := h c1 (List.mem_cons_self _ _)
    have hrest : ∀ c ∈ rest, c ≠ '(' := fun c hcm => h c (List.mem_cons_of_mem _ hcm)
    cases hq : rest ++ m with
    | nil =>
      obtain ⟨hr, hm⟩ := List.append_eq_nil.mp hq
      subst hr; subst hm; rfl
    | cons c2 r2 =>
      show replPlus (c1 :: (rest ++ m)) = (c1 :: rest) ++ replPlus m
      rw [hq]
      simp only [replPlus]
      rw [if_neg (fun hand => hc1 hand.1), ← hq, ih hrest m]
      rfl

theorem replMinus_id (l : List Char) (h : ∀ c ∈ l, c ≠ '(') : replMinus l = l := by
  have h2 := replMinus_skip l h []
  simpa [replMinus] using h2

theorem replPlus_id_noplus (l : List Char) (h : ∀ c ∈ l, c ≠ '+') : replPlus l = l := by
  induction l with
  | nil => rfl
  | cons c1 rest ih =>
    cases hr : rest with
    | nil => rfl
    | cons c2 r2 =>
      simp only [replPlus]
      rw [if_neg (fun hand => h c2 (by rw [hr]; exact List.mem_cons_of_mem _ (List.mem_cons_self _ _)) hand.2)]
      rw [← hr, ih (fun c hcm => h c (List.mem_cons_of_mem _ hcm))]

theorem tail_no_paren (off : Nat) : ∀ c ∈ pad2 off ++ [')'], c ≠ '(' := by
  intro c hc
  rcases List.mem_append.mp hc with h2 | h2
  · exact digit_ne_paren c (mem_pad2 c off h2)
  · rcases List.mem_cons.mp h2 with rfl | h3
    · decide
    · cases h3

theorem tail_no_plus (off : Nat) : ∀ c ∈ pad2 off ++ [')'], c ≠ '+' := by
  intro c hc
  rcases List.mem_append.mp hc with h2 | h2
  · exact digit_ne_plus c (mem_pad2 c off h2)
  · rcases List.mem_cons.mp h2 with rfl | h3
    · decide
    · cases h3

theorem replMinus_hit (t : List Char) :
    replMinus ('(' :: '-' :: t) = '(' :: 'G' :: 'M' :: 'T' :: '-' :: replMinus t := by
  simp only [replMinus]
  rw [if_pos (by simp)]

theorem replMinus_miss_plus (t : List Char) :
    replMinus ('(' :: '+' :: t) = '(' :: replMinus ('+' :: t) := by
  simp only [replMinus]
  rw [if_neg (by rintro ⟨h1, h2⟩; exact absurd h2 (by decide))]

theorem replPlus_hit (t : List Char) :
    replPlus ('(' :: '+' :: t) = '(' :: 'G' :: 'M' :: 'T' :: '+' :: replPlus t := by
  simp only [replPlus]
  rw [if_pos (by simp)]

/-- The source's two `replace` calls turn the compact annotation into
the explicit GMT form and touch nothing else. -/
theorem fixTz_renderCompact (y mo d h mi off : Nat) (neg : Bool) :
    fixTz (renderCompact y mo d h mi neg off) = renderGMT y mo d h mi neg off := by
  unfold fixTz renderCompact renderGMT
  congr 1
  have hpre := tsPrefix_chars y mo d h mi
  have hpre_np : ∀ c ∈ tsPrefix y mo d h mi, c ≠ '(' := fun c hc => (hpre c hc).1
  have hpre_npl : ∀ c ∈ tsPrefix y mo d h mi, c ≠ '+' := fun c hc => (hpre c hc).2
  cases neg with
  | true =>
    show replPlus (replMinus (tsPrefix y mo d h mi ++ '(' :: '-' :: (pad2 off ++ [')']))) =
      tsPrefix y mo d h mi ++ '(' :: 'G' :: 'M' :: 'T' :: '-' :: (pad2 off ++ [')'])
    rw [replMinus_skip _ hpre_np, replMinus_hit, replMinus_id _ (tail_no_paren off)]
    refine replPlus_id_noplus _ ?_
    intro c hc
    rcases List.mem_append.mp hc with h2 | h2
    · exact hpre_npl c h2
    · rcases List.mem_cons.mp h2 with rfl | h3
      · decide
      · rcases List.mem_cons.mp h3 with rfl | h4
        · decide
        · rcases List.mem_cons.mp h4 with rfl | h5
          · decide
          · rcases List.mem_cons.mp h5 with rfl | h6
            · decide
            · rcases List.mem_cons.mp h6 with rfl | h7
              · decide
              · exact tail_no_plus off c h7
  | false =>
    show replPlus (replMinus (tsPrefix y mo d h mi ++ '(' :: '+' :: (pad2 off ++ [')']))) =
      tsPrefix y mo d h mi ++ '(' :: 'G' :: 'M' :: 'T' :: '+' :: (pad2 off ++ [')'])
    have hplus_tail : ∀ c ∈ '+' :: (pad2 off ++ [')']), c ≠ '(' := by
      intro c hc
      rcases List.mem_cons.mp hc with rfl | h2
      · decide
      · exact tail_no_paren off c h2
    rw [replMinus_skip _ hpre_np, replMinus_miss_plus,
      replMinus_id _ hplus_tail, replPlus_skip _ hpre_np, replPlus_hit,
      replPlus_id_noplus _ (tail_no_plus off)]

theorem dateparserParse_gmt_shape (y1 y2 y3 y4 m1 m2 d1 d2 h1 h2 n1 n2 sg o1 o2 : Char) :
    dateparserParse ⟨[y1, y2, y3, y4, '-', m1, m2, '-', d1, d2, ' ', h1, h2, ':', n1, n2,
      ' ', '(', 'G', 'M', 'T', sg, o1, o2, ')']⟩ =
      if (y1.isDigit && y2.isDigit && y3.isDigit && y4.isDigit &&
          m1.isDigit && m2.isDigit && d1.isDigit && d2.isDigit &&
          h1.isDigit && h2.isDigit && n1.isDigit && n2.isDigit &&
          o1.isDigit && o2.isDigit && (sg == '-' || sg == '+')) then
        some (civilMinutes (dec4 y1 y2 y3 y4) (dec2 m1 m2) (dec2 d1 d2)
            (dec2 h1 h2) (dec2 n1 n2) - offMinutes sg (60 * dec2 o1 o2))
      else none := rfl

theorem dateparserParse_iso_shape (y1 y2 y3 y4 m1 m2 d1 d2 h1 h2 n1 n2 sg o1 o2 p1 p2 : Char) :
    dateparserParse ⟨[y1, y2, y3, y4, '-', m1, m2, '-', d1, d2, 'T', h1, h2, ':', n1, n2,
      sg, o1, o2, ':', p1, p2]⟩ =
      if (y1.isDigit && y2.isDigit && y3.isDigit && y4.isDigit &&
          m1.isDigit && m2.isDigit && d1.isDigit && d2.isDigit &&
          h1.isDigit && h2.isDigit && n1.isDigit && n2.isDigit &&
          o1.isDigit && o2.isDigit && p1.isDigit && p2.isDigit &&
          (sg == '-' || sg == '+')) then
        some (civilMinutes (dec4 y1 y2 y3 y4) (dec2 m1 m2) (dec2 d1 d2)
            (dec2 h1 h2) (dec2 n1 n2) - offMinutes sg (60 * dec2 o1 o2 + dec2 p1 p2))
      else none := rfl

theorem dateparserParse_gmt (y mo d h mi off : Nat) (neg : Bool)
    (hy : y < 10000) (hmo : mo < 100) (hd : d < 100) (hh : h < 100)
    (hmi : mi < 100) (hoff : off < 100) :
    dateparserParse (renderGMT y mo d h mi neg off) =
      some (civilMinutes y mo d h mi - offMinutes (sgChar neg) (60 * off)) := by
  have hlist : renderGMT y mo d h mi neg off =
      ⟨[digitChar (y / 1000), digitChar (y / 100), digitChar (y / 10), digitChar y,
        '-', digitChar (mo / 10), digitChar mo, '-', digitChar (d / 10), digitChar d,
        ' ', digitChar (h / 10), digitChar h, ':', digitChar (mi / 10), digitChar mi,
        ' ', '(', 'G', 'M', 'T', sgChar neg, digitChar (off / 10), digitChar off, ')']⟩ := by
    unfold renderGMT tsPrefix pad4 pad2
    rfl
  rw [hlist, dateparserParse_gmt_shape]
  rw [if_pos (by cases neg <;> simp [digitChar_isDigit, sgChar])]
  rw [dec4_pad4 y hy, dec2_pad2 mo hmo, dec2_pad2 d hd, dec2_pad2 h hh,
    dec2_pad2 mi hmi, dec2_pad2 off hoff]

theorem dateparserParse_iso (y mo d h mi off : Nat) (neg : Bool)
    (hy : y < 10000) (hmo : mo < 100) (hd : d < 100) (hh : h < 100)
    (hmi : mi < 100) (hoff : off < 100) :
    dateparserParse (renderIso y mo d h mi neg off) =
      some (civilMinutes y mo d h mi - offMinutes (sgChar neg) (60 * off)) := by
  have hlist : renderIso y mo d h mi neg off =
      ⟨[digitChar (y / 1000), digitChar (y / 100), digitChar (y / 10), digitChar y,
        '-', digitChar (mo / 10), digitChar mo, '-', digitChar (d / 10), digitChar d,
        'T', digitChar (h / 10), digitChar h, ':', digitChar (mi / 10), digitChar mi,
        sgChar neg, digitChar (off / 10), digitChar off, ':', '0', '0']⟩ := by
    unfold renderIso pad4 pad2
    rfl
  rw [hlist, dateparserParse_iso_shape]
  rw [if_pos (by cases neg <;> simp [digitChar_isDigit, sgChar])]
  rw [dec4_pad4 y hy, dec2_pad2 mo hmo, dec2_pad2 d hd, dec2_pad2 h hh,
    dec2_pad2 mi hmi, dec2_pad2 off hoff]
  have h00 : dec2 '0' '0' = 0 := rfl
  rw [h00, Nat.add_zero]

/-- Claim C7: every well-formed Peloton timestamp with a compact
parenthesized offset annotation "(±HH)" is rewritten by the source into
the explicit "(GMT±HH)" form before parsing, and the resulting UTC
instant equals the instant denoted by the equivalent ISO-8601 string
with offset "±HH:00"; the parse succeeds. -/
theorem claim_C7_timezone (y mo d h mi off : Nat) (neg : Bool)
    (hy : y < 10000) (hmo : mo < 100) (hd : d < 100) (hh : h < 100)
    (hmi : mi < 100) (hoff : off < 100) :
    fixTz (renderCompact y mo d h mi neg off) = renderGMT y mo d h mi neg off ∧
    parse_datetime (renderCompact y mo d h mi neg off) =
      dateparserParse (renderIso y mo d h mi neg off) ∧
    (parse_datetime (renderCompact y mo d h mi neg off)).isSome = true := by
  have hfix := fixTz_renderCompact y mo d h mi off neg
  have hg := dateparserParse_gmt y mo d h mi off neg hy hmo hd hh hmi hoff
  have hi := dateparserParse_iso y mo d h mi off neg hy hmo hd hh hmi hoff
  refine ⟨hfix, ?_, ?_⟩
  · unfold parse_datetime
    rw [hfix, hg, hi]
  · unfold parse_datetime
    rw [hfix, hg]
    rfl

theorem claim_C7_witness :
    fixTz (renderCompact 2020 12 31 20 0 true 5) = renderGMT 2020 12 31 20 0 true 5 ∧
    parse_datetime (renderCompact 2020 12 31 20 0 true 5) =
      dateparserParse (renderIso 2020 12 31 20 0 true 5) ∧
    fixTz ⟨("2020-12-31 20:00 (-05)").data⟩ = ⟨("2020-12-31 20:00 (GMT-05)").data⟩ ∧
    parse_datetime (renderCompact 2021 6 1 9 30 false 2) =
      dateparserParse (renderIso 2021 6 1 9 30 false 2) := by
  have h1 := claim_C7_timezone 2020 12 31 20 0 5 true (by decide) (by decide)
    (by decide) (by decide) (by decide) (by decide)
  have h2 := claim_C7_timezone 2021 6 1 9 30 2 false (by decide) (by decide)
    (by decide) (by decide) (by decide) (by decide)
  exact ⟨h1.1, h1.2.1, by decide, h2.2.1⟩

/-!
The normalizer `process_workouts_df` (lines 89-126 of src/main.py).
Pandas column assignment `workouts_df["c_x"] = ...` mutates the frame
in place: an existing column is overwritten, a new one is appended at
the end, and the same (extended) frame object is stored back to the
session state.  The frame-level `.apply` calls are modelled row-wise;
the error a non-string timestamp cell raises in `date_str.replace` is
the `AttributeError` case.
-/

/-- The derived columns the normalizer assigns. -/
def newCols : List String :=
  ["c_datetime", "c_day", "c_week", "c_month", "c_year",
   "c_calories_per_minute", "c_output_per_minute"]

/-- Overwrite every cell of an existing column. -/
def replaceCol : Row → String → Cell → Row
  | [], _, _ => []
  | (c0, v0) :: rest, c, v =>
      if c0 = c then (c0, v) :: replaceCol rest c v
      else (c0, v0) :: replaceCol rest c v

/-- Pandas column assignment on one row: overwrite the column when it
exists, append it otherwise. -/
def setCol (r : Row) (c : String) (v : Cell) : Row :=
  if (colGet r c).isSome then replaceCol r c v else r ++ [(c, v)]

/-- `.date()` of a UTC instant. -/
def dayOfInstant (t : Int) : Date := civilFromRataDie (t / 1440).toNat

/-- `strftime("%Y-%m")`. -/
def monthStr (dt : Date) : String := ⟨pad4 dt.year ++ '-' :: pad2 dt.month⟩

/-- A pandas float-division result stored back into a cell: NaN is a
missing value, infinities are ordinary (non-null) cells. -/
def ratioCell : RatioVal → Cell
  | RatioVal.absent => none
  | RatioVal.val q => some (Val.rat q)
  | RatioVal.posInf => some (Val.infty true)
  | RatioVal.negInf => some (Val.infty false)

/-- Lines 118-120: `workouts_df["Calories Burned"] / workouts_df["Length (minutes)"]`
on one row. -/
def c_calories_per_minute (r : Row) : RatioVal :=
  pdiv (numOf r "Calories Burned") (numOf r "Length (minutes)")

/-- Lines 121-123: `workouts_df["Total Output"] / workouts_df["Length (minutes)"]`
on one row. -/
def c_output_per_minute (r : Row) : RatioVal :=
  pdiv (numOf r "Total Output") (numOf r "Length (minutes)")

/-- The seven c_* column assignments of lines 102-123, in source
order.  The c_* names are fresh relative to the export's columns, so
reading the three metric columns before or after these assignments is
observationally identical; the reads are hoisted into `processRow`. -/
def assignDerived (r : Row) (dt : Option Int) (cal len out : Option ℚ) : Row :=
  let dayD := dt.map dayOfInstant
  let r := setCol r "c_datetime" (dt.map Val.dt)
  let r := setCol r "c_day" (dayD.map Val.date)
  let r := setCol r "c_week" (dayD.map fun dd => Val.date (c_week dd))
  let r := setCol r "c_month" (dayD.map fun dd => Val.str (monthStr dd))
  let r := setCol r "c_year" (dayD.map fun dd => Val.rat (dd.year : ℚ))
  let r := setCol r "c_calories_per_minute" (ratioCell (pdiv cal len))
  let r := setCol r "c_output_per_minute" (ratioCell (pdiv out len))
  r

/-- One row of `process_workouts_df` (lines 96-123): parse the
timestamp, derive the calendar buckets and per-record ratios, and
assign the seven c_* columns.  An unparseable timestamp string yields
an absent instant and absent derived cells (the spec's stated
behaviour of the external dateparser/pandas pipeline); a non-string
timestamp cell is the AttributeError of `date_str.replace`. -/
def processRow (r : Row) : Except String Row := do
  let tsCell ← rowGet r "Workout Timestamp"
  let dt ← match tsCell with
    | some (Val.str s) => Except.ok (parse_datetime s)
    | _ => Except.error "AttributeError"
  let cal ← rowNum r "Calories Burned"
  let len ← rowNum r "Length (minutes)"
  let out ← rowNum r "Total Output"
  pure (assignDerived r dt cal len out)

/-- The normalization pass over the whole table (the session-state
store receives this value). -/
def process_workouts_df : List Row → Except String (List Row)
  | [] => Except.ok []
  | r :: rest => do
    let rp ← processRow r
    let restp ← process_workouts_df rest
    pure (rp :: restp)

theorem colGet_replaceCol_ne (r : Row) (c c2 : String) (v : Cell) (h : c2 ≠ c) :
    colGet (replaceCol r c v) c2 = colGet r c2 := by
  induction r with
  | nil => rfl
  | cons p rest ih =>
    obtain ⟨c0, v0⟩ := p
    by_cases h0 : c0 = c
    · subst h0
      simp only [replaceCol, if_pos rfl, colGet]
      rw [if_neg (fun he => h he.symm), if_neg (fun he => h he.symm)]
      exact ih
    · simp only [replaceCol, if_neg h0, colGet]
      by_cases h2 : c0 = c2
      · simp [h2]
      · rw [if_neg h2, if_neg h2]
        exact ih

theorem colGet_replaceCol_self (r : Row) (c : String) (v : Cell) :
    colGet (replaceCol r c v) c = (colGet r c).map fun _ => v := by
  induction r with
  | nil => rfl
  | cons p rest ih =>
    obtain ⟨c0, v0⟩ := p
    by_cases h0 : c0 = c
    · subst h0
      simp [replaceCol, colGet]
    · simp only [replaceCol, if_neg h0, colGet]
      exact ih

theorem colGet_append (r1 r2 : Row) (c : String) :
    colGet (r1 ++ r2) c =
      match colGet r1 c with
      | some w => some w
      | none => colGet r2 c := by
  induction r1 with
  | nil => rfl
  | cons p rest ih =>
    obtain ⟨c0, v0⟩ := p
    by_cases h0 : c0 = c
    · simp [colGet, h0]
    · simp only [List.cons_append, colGet, if_neg h0]
      exact ih

theorem colGet_setCol_ne (r : Row) (c c2 : String) (v : Cell) (h : c2 ≠ c) :
    colGet (setCol r c v) c2 = colGet r c2 := by
  unfold setCol
  by_cases hp : (colGet r c).isSome
  · rw [if_pos hp]
    exact colGet_replaceCol_ne r c c2 v h
  · rw [if_neg hp, colGet_append]
    cases hg : colGet r c2 with
    | some w => rfl
    | none =>
      show colGet [(c, v)] c2 = none
      simp only [colGet]
      rw [if_neg (fun he : c = c2 => h he.symm)]

theorem colGet_setCol_self (r : Row) (c : String) (v : Cell) :
    colGet (setCol r c v) c = some v := by
  unfold setCol
  by_cases hp : (colGet r c).isSome
  · rw [if_pos hp, colGet_replaceCol_self]
    cases hg : colGet r c with
    | some w => rfl
    | none => rw [hg] at hp; cases hp
  · rw [if_neg hp, colGet_append]
    cases hg : colGet r c with
    | some w => rw [hg] at hp; exact absurd rfl hp
    | none => simp [colGet]

theorem errBind {ε α β : Type} (e : ε) (f : α → Except ε β) :
    (Except.error e : Except ε α) >>= f = Except.error e := rfl

theorem assignDerived_cols (r : Row) (dt : Option Int) (cal len out : Option ℚ) :
    (∀ c, c ∉ newCols → colGet (assignDerived r dt cal len out) c = colGet r c) ∧
    (∀ c ∈ newCols, (colGet (assignDerived r dt cal len out) c).isSome = true) := by
  constructor
  · intro c hc
    simp only [newCols, List.mem_cons, List.not_mem_nil, or_false, not_or] at hc
    obtain ⟨h1, h2, h3, h4, h5, h6, h7⟩ := hc
    unfold assignDerived
    rw [colGet_setCol_ne _ _ _ _ h7, colGet_setCol_ne _ _ _ _ h6,
      colGet_setCol_ne _ _ _ _ h5, colGet_setCol_ne _ _ _ _ h4,
      colGet_setCol_ne _ _ _ _ h3, colGet_setCol_ne _ _ _ _ h2,
      colGet_setCol_ne _ _ _ _ h1]
  · intro c hc
    simp only [newCols, List.mem_cons, List.not_mem_nil, or_false] at hc
    unfold assignDerived
    rcases hc with rfl|rfl|rfl|rfl|rfl|rfl|rfl
    · rw [colGet_setCol_ne _ _ _ _ (by decide), colGet_setCol_ne _ _ _ _ (by decide),
        colGet_setCol_ne _ _ _ _ (by decide), colGet_setCol_ne _ _ _ _ (by decide),
        colGet_setCol_ne _ _ _ _ (by decide), colGet_setCol_ne _ _ _ _ (by decide),
        colGet_setCol_self]
      rfl
    · rw [colGet_setCol_ne _ _ _ _ (by decide), colGet_setCol_ne _ _ _ _ (by decide),
        colGet_setCol_ne _ _ _ _ (by decide), colGet_setCol_ne _ _ _ _ (by decide),
        colGet_setCol_ne _ _ _ _ (by decide), colGet_setCol_self]
      rfl
    · rw [colGet_setCol_ne _ _ _ _ (by decide), colGet_setCol_ne _ _ _ _ (by decide),
        colGet_setCol_ne _ _ _ _ (by decide), colGet_setCol_ne _ _ _ _ (by decide),
        colGet_setCol_self]
      rfl
    · rw [colGet_setCol_ne _ _ _ _ (by decide), colGet_setCol_ne _ _ _ _ (by decide),
        colGet_setCol_ne _ _ _ _ (by decide), colGet_setCol_self]
      rfl
    · rw [colGet_setCol_ne _ _ _ _ (by decide), colGet_setCol_ne _ _ _ _ (by decide),
        colGet_setCol_self]
      rfl
    · rw [colGet_setCol_ne _ _ _ _ (by decide), colGet_setCol_self]
      rfl
    · rw [colGet_setCol_self]
      rfl

theorem processRow_ok_form (r rp : Row) (h : processRow r = Except.ok rp) :
    ∃ dt cal len out, rp = assignDerived r dt cal len out := by
  unfold processRow at h
  cases hts : rowGet r "Workout Timestamp" with
  | error e => rw [hts, errBind] at h; cases h
  | ok tsCell =>
    rw [hts, okBind] at h
    rcases tsCell with _ | v
    · exact absurd
        (show (Except.error "AttributeError" : Except String Row) = Except.ok rp from h)
        (by simp)
    · rcases v with q | sx | dd | tt | bb
      · exact absurd
          (show (Except.error "AttributeError" : Except String Row) = Except.ok rp from h)
          (by simp)
      · simp only [okBind] at h
        cases hcal : rowNum r "Calories Burned" with
        | error e => rw [hcal, errBind] at h; cases h
        | ok cal =>
          rw [hcal, okBind] at h
          cases hlen : rowNum r "Length (minutes)" with
          | error e => rw [hlen, errBind] at h; cases h
          | ok len =>
            rw [hlen, okBind] at h
            cases hout : rowNum r "Total Output" with
            | error e => rw [hout, errBind] at h; cases h
            | ok out =>
              rw [hout, okBind] at h
              exact ⟨parse_datetime sx, cal, len, out, (Except.ok.inj h).symm⟩
      · exact absurd
          (show (Except.error "AttributeError" : Except String Row) = Except.ok rp from h)
          (by simp)
      · exact absurd
          (show (Except.error "AttributeError" : Except String Row) = Except.ok rp from h)
          (by simp)
      · exact absurd
          (show (Except.error "AttributeError" : Except String Row) = Except.ok rp from h)
          (by simp)

theorem processRow_cols (r rp : Row) (h : processRow r = Except.ok rp) :
    (∀ c, c ∉ newCols → colGet rp c = colGet r c) ∧
    (∀ c ∈ newCols, (colGet rp c).isSome = true) := by
  obtain ⟨dt, cal, len, out, rfl⟩ := processRow_ok_form r rp h
  exact assignDerived_cols r dt cal len out

/-- Claim C9, amended: normalization is not a pure copy — it extends
the rows in place — but every pre-existing non-c_* column of every row
keeps its value, and each processed row carries the seven derived c_*
columns. -/
theorem claim_C9_amended (rows res : List Row)
    (hok : process_workouts_df rows = Except.ok res) :
    List.Forall₂ (fun r rp =>
      (∀ c, c ∉ newCols → colGet rp c = colGet r c) ∧
      ∀ c ∈ newCols, (colGet rp c).isSome = true) rows res := by
  induction rows generalizing res with
  | nil =>
    have h2 := Except.ok.inj hok
    rw [← h2]
    exact List.Forall₂.nil
  | cons r rest ih =>
    unfold process_workouts_df at hok
    cases hr : processRow r with
    | error e => rw [hr, errBind] at hok; cases hok
    | ok rp =>
      rw [hr, okBind] at hok
      cases hrest : process_workouts_df rest with
      | error e => rw [hrest, errBind] at hok; cases hok
      | ok restp =>
        rw [hrest, okBind] at hok
        have h2 := Except.ok.inj hok
        rw [← h2]
        exact List.Forall₂.cons (processRow_cols r rp hr) (ih restp hrest)

/-- A raw export row: timestamp plus the seven (here empty) metric
columns. -/
def demoRawRow : Row :=
  ("Workout Timestamp", some (Val.str "2020-12-31 20:00 (-05)")) ::
    mkRow none none none none none none none

/-- What the normalizer turns `demoRawRow` into: the same cells plus
the seven derived columns (20:00 at -05 is 01:00 UTC of 2021-01-01;
the c_week value shows the year-boundary defect of C6). -/
def demoProcessedRow : Row :=
  demoRawRow ++
    [("c_datetime", some (Val.dt 1062419100)),
     ("c_day", some (Val.date ⟨2021, 1, 1⟩)),
     ("c_week", some (Val.date ⟨2022, 1, 3⟩)),
     ("c_month", some (Val.str "2021-01")),
     ("c_year", some (Val.rat 2021)),
     ("c_calories_per_minute", none),
     ("c_output_per_minute", none)]

/-- Claim C9, counterexample: the table the normalizer stores back is
not the caller-supplied one — each row has been extended with the c_*
fields, so the rows are modified rather than left unmodified. -/
theorem claim_C9_counterexample :
    process_workouts_df [demoRawRow] = Except.ok [demoProcessedRow] ∧
    demoProcessedRow ≠ demoRawRow ∧
    process_workouts_df [demoRawRow] ≠ Except.ok [demoRawRow] := by
  refine ⟨by decide, by decide, ?_⟩
  intro hcontra
  have h1 : process_workouts_df [demoRawRow] = Except.ok [demoProcessedRow] := by
    decide
  rw [h1] at hcontra
  have h2 := Except.ok.inj hcontra
  have h3 : demoProcessedRow = demoRawRow := by
    have := congrArg (fun l => l.headI) h2
    simpa using this
  exact absurd h3 (by decide)

theorem claim_C9_witness :
    colGet demoProcessedRow "Length (minutes)" = colGet demoRawRow "Length (minutes)" ∧
    colGet demoProcessedRow "Workout Timestamp" = colGet demoRawRow "Workout Timestamp" ∧
    (colGet demoProcessedRow "c_week").isSome = true := by
  have h := claim_C9_amended [demoRawRow] [demoProcessedRow] (by decide)
  cases h with
  | cons hh ht =>
    exact ⟨hh.1 _ (by decide), hh.1 _ (by decide), hh.2 _ (by decide)⟩

/-- Claim C3, counterexample: a record with a present, exactly-zero
length and 500 calories gets a per-record calories-per-minute of +inf
under pandas division — not an absent value as claimed. -/
theorem claim_C3_counterexample :
    c_calories_per_minute (mkRow none (some 0) (some 100) (some 500) none none none) =
      RatioVal.posInf ∧
    RatioVal.posInf ≠ RatioVal.absent := by
  exact ⟨by decide, by decide⟩

/-- Claim C3, amended: no division of the core raises; a per-record
ratio is absent when an operand is absent or the division is 0/0, and a
zero denominator with a nonzero numerator yields a signed infinity; a
weighted-average field of a group summary is the pandas division of the
accumulated sums and is absent whenever that metric has no qualifying
record (no accumulated minutes at all). -/
theorem claim_C3_division_policy (r : Row) (a : ℚ) (rows : List Row)
    (group_by : Option String) (res : List (Val × GroupSummary)) (k : Val)
    (s : GroupSummary)
    (hwf : ∀ x ∈ rows, WFRow group_by x)
    (hok : Aggregation rows group_by = Except.ok res)
    (hmem : (k, s) ∈ res) :
    ((numOf r "Calories Burned" = none ∨ numOf r "Length (minutes)" = none) →
      c_calories_per_minute r = RatioVal.absent) ∧
    ((numOf r "Total Output" = none ∨ numOf r "Length (minutes)" = none) →
      c_output_per_minute r = RatioVal.absent) ∧
    (numOf r "Length (minutes)" = some 0 → numOf r "Calories Burned" = some a →
      c_calories_per_minute r =
        if a = 0 then RatioVal.absent
        else if 0 < a then RatioVal.posInf else RatioVal.negInf) ∧
    (s.calories_per_minute =
      pdiv (mergeOpt none (weightedVals rows group_by k "Calories Burned" fun _ v => v))
           (mergeOpt none (weightedVals rows group_by k "Calories Burned" fun L _ => L))) ∧
    (weightedVals rows group_by k "Calories Burned" (fun L _ => L) = [] →
      s.calories_per_minute = RatioVal.absent) ∧
    (weightedVals rows group_by k "Total Output" (fun L _ => L) = [] →
      s.output_per_minute = RatioVal.absent) ∧
    (weightedVals rows group_by k "Avg. Heartrate" (fun L _ => L) = [] →
      s.avg_heartrate = RatioVal.absent) ∧
    (weightedVals rows group_by k "Avg. Speed (mph)" (fun L _ => L) = [] →
      s.avg_speed = RatioVal.absent) ∧
    (weightedVals rows group_by k "Avg. Cadence (RPM)" (fun L _ => L) = [] →
      s.avg_cadence = RatioVal.absent) := by
  rw [res_eq_of_ok rows group_by res hwf hok] at hmem
  obtain ⟨n, hg, rfl⟩ := (mem_aggregated_df _ _ _ (nodup_foldP rows group_by)).mp hmem
  have hempty : ∀ (c : String) (f : ℚ → ℚ → ℚ),
      weightedVals rows group_by k c (fun L _ => L) = [] →
      weightedVals rows group_by k c f = [] := by
    intro c f hnil
    by_contra hne
    exact weightedVals_ne_nil rows group_by k c f (fun L _ => L) hne hnil
  refine ⟨?_, ?_, ?_, ?_, ?_, ?_, ?_, ?_, ?_⟩
  · intro h
    unfold c_calories_per_minute
    rcases h with h | h
    · rw [h]
      rfl
    · rw [h]
      cases numOf r "Calories Burned" <;> rfl
  · intro h
    unfold c_output_per_minute
    rcases h with h | h
    · rw [h]
      rfl
    · rw [h]
      cases numOf r "Total Output" <;> rfl
  · intro hlen hcal
    unfold c_calories_per_minute
    rw [hlen, hcal]
    simp [pdiv]
  · show pdiv (getAcc (foldP rows group_by).total_calories k)
      (getAcc (foldP rows group_by).total_calories_minutes k) = _
    rw [foldP_calories, foldP_calories_minutes]
  · intro hnil
    show pdiv (getAcc (foldP rows group_by).total_calories k)
      (getAcc (foldP rows group_by).total_calories_minutes k) = _
    rw [foldP_calories, foldP_calories_minutes, hnil,
      hempty "Calories Burned" (fun _ v => v) hnil]
    rfl
  · intro hnil
    show pdiv (getAcc (foldP rows group_by).total_output k)
      (getAcc (foldP rows group_by).total_output_minutes k) = _
    rw [foldP_output, foldP_output_minutes, hnil,
      hempty "Total Output" (fun _ v => v) hnil]
    rfl
  · intro hnil
    show pdiv (getAcc (foldP rows group_by).total_hr k)
      (getAcc (foldP rows group_by).total_hr_minutes k) = _
    rw [foldP_hr, foldP_hr_minutes, hnil,
      hempty "Avg. Heartrate" (fun L v => L * v) hnil]
    rfl
  · intro hnil
    show pdiv (getAcc (foldP rows group_by).total_speed k)
      (getAcc (foldP rows group_by).total_speed_minutes k) = _
    rw [foldP_speed, foldP_speed_minutes, hnil,
      hempty "Avg. Speed (mph)" (fun L v => L * v) hnil]
    rfl
  · intro hnil
    show pdiv (getAcc (foldP rows group_by).total_cadence k)
      (getAcc (foldP rows group_by).total_cadence_minutes k) = _
    rw [foldP_cadence, foldP_cadence_minutes, hnil,
      hempty "Avg. Cadence (RPM)" (fun L v => L * v) hnil]
    rfl

theorem claim_C3_witness :
    c_calories_per_minute (mkRow none none none (some 500) none none none) =
      RatioVal.absent ∧
    c_calories_per_minute (mkRow none (some 0) (some 100) (some 500) none none none) =
      RatioVal.posInf ∧
    demoSummary.avg_heartrate = RatioVal.absent ∧
    demoSummary.output_per_minute = RatioVal.absent := by
  have h := claim_C3_division_policy
    (mkRow none none none (some 500) none none none) 500 demoRows none
    [(Val.str "All Time", demoSummary)] (Val.str "All Time") demoSummary
    (by with_unfolding_all decide) (by with_unfolding_all decide)
    (by with_unfolding_all decide)
  have h2 := claim_C3_division_policy
    (mkRow none (some 0) (some 100) (some 500) none none none) 500 demoRows none
    [(Val.str "All Time", demoSummary)] (Val.str "All Time") demoSummary
    (by with_unfolding_all decide) (by with_unfolding_all decide)
    (by with_unfolding_all decide)
  refine ⟨h.1 (Or.inr (by decide)), ?_, ?_, ?_⟩
  · rw [h2.2.2.1 (by decide) (by decide)]
    norm_num
  · exact h.2.2.2.2.2.2.1 (by with_unfolding_all decide)
  · exact h.2.2.2.2.2.1 (by with_unfolding_all decide)
